import Mathlib

/-!
# TRENT-OS network throughput benchmark servers

A shallow embedding of the two benchmark components

* `BenchUdpThroughput.c` (UDP counter-exchange responder) and
* `BenchTcpThroughput.c` (TCP pattern sender),

together with theorems about their protocol logic.

The socket facility (`OS_Socket_*`) is external to the components.  Every call
into it is modelled by a *response tape*: the list of the results that the
successive calls of one primitive report.  A function of the embedding reads
the next response whenever the C code performs the call; when a tape is used
up the function stops with the result "still inside the call" (`none`).
Debug output (`Debug_LOG_*`) has no influence on control flow or data and is
left out.  Unsigned machine integers are natural numbers, reduced explicitly
where the C type truncates.
-/

/-- Modelled from the spec: the error codes of `OS_Error.h`, which is not among
the sources.  The components compare results only with the codes named here;
every further code of the enumeration is `other code`. -/
inductive OS_Error_t where
  | OS_SUCCESS
  | OS_ERROR_TRY_AGAIN
  | OS_ERROR_CONNECTION_CLOSED
  | OS_ERROR_NETWORK_CONN_SHUTDOWN
  | OS_ERROR_NETWORK_CONN_REFUSED
  | OS_ERROR_ABORTED
  | OS_ERROR_INVALID_STATE
  | OS_ERROR_INVALID_HANDLE
  | other (code : Int)
  deriving DecidableEq, Repr

/-- Modelled from the spec: the states reported by `OS_Socket_getStatus`
(`getStatus() -> {Running, FatalError, Other}`); the enumeration itself is
declared outside the sources. -/
inductive OS_NetworkStack_State_t where
  | RUNNING
  | FATAL_ERROR
  | other (code : Nat)
  deriving DecidableEq, Repr

/-- The socket address `OS_Socket_Addr_t`: the characters of the address string
and the port. -/
structure OS_Socket_Addr_t where
  addr : List Nat
  port : Nat
  deriving DecidableEq, Repr

/-- What `waitForNetworkStackInit` does, in order. -/
inductive InitStep where
  | getStatus (s : OS_NetworkStack_State_t)
  | seL4_Yield
  deriving DecidableEq, Repr

/-- Result of `waitForNetworkStackInit`: the returned code (`none` while the
function is still polling at the end of the tape) and what it did. -/
structure InitResult where
  ret : Option OS_Error_t
  steps : List InitStep
  deriving DecidableEq, Repr

/-- The function `waitForNetworkStackInit`, whose text is the same in both
components, run on the successive results of `OS_Socket_getStatus`. -/
def waitForNetworkStackInit : List OS_NetworkStack_State_t → InitResult
  | [] => ⟨none, []⟩
  | networkStackState :: later =>
    if networkStackState = .RUNNING then
      ⟨some .OS_SUCCESS, [.getStatus networkStackState]⟩
    else if networkStackState = .FATAL_ERROR then
      ⟨some .OS_ERROR_ABORTED, [.getStatus networkStackState]⟩
    else
      let r := waitForNetworkStackInit later
      ⟨r.ret, .getStatus networkStackState :: .seL4_Yield :: r.steps⟩

namespace BenchUdpThroughput

/-- One result of `OS_Socket_recvfrom`: the returned code, the value stored in
`actualLen`, the contents of the static buffer `buf` (of
`OS_DATAPORT_DEFAULT_SIZE` bytes) after the call and the sender address
stored in `srcAddr`.  The first byte `buf[0]` is read as `buf.getD 0 0`. -/
structure RecvResult where
  ret : OS_Error_t
  actualLen : Nat
  buf : List Nat
  srcAddr : OS_Socket_Addr_t
  deriving DecidableEq, Repr

/-- One result of `OS_Socket_sendto`: the returned code and the value stored in
`actualLen`. -/
structure SendResult where
  ret : OS_Error_t
  actualLen : Nat
  deriving DecidableEq, Repr

/-- The arguments of one `OS_Socket_sendto` call: the `len` bytes at the front
of the buffer and the destination address. -/
structure SendCall where
  data : List Nat
  len : Nat
  dstAddr : OS_Socket_Addr_t
  deriving DecidableEq, Repr

/-- The stores `buf[k] = totalReceived >> 8k` for k = 0..7 into the byte
buffer (lines 80 to 87); a store into a `uint8_t` keeps the low eight bits. -/
def storeCounter (buf : List Nat) (totalReceived : Nat) : List Nat :=
  let buf := buf.set 0 (totalReceived % 256)
  let buf := buf.set 1 ((totalReceived >>> 8) % 256)
  let buf := buf.set 2 ((totalReceived >>> 16) % 256)
  let buf := buf.set 3 ((totalReceived >>> 24) % 256)
  let buf := buf.set 4 ((totalReceived >>> 32) % 256)
  let buf := buf.set 5 ((totalReceived >>> 40) % 256)
  let buf := buf.set 6 ((totalReceived >>> 48) % 256)
  buf.set 7 ((totalReceived >>> 56) % 256)

/-- How the inner send loop ends: left by `break` with the last code, left by
`return ret`, or still inside `OS_Socket_sendto`. -/
inductive SendEnd where
  | broke (ret : OS_Error_t)
  | returned (ret : OS_Error_t)
  | blocked
  deriving DecidableEq, Repr

/-- Result of the inner send loop: the calls made, how it ended and the unread
responses. -/
structure SendLoopResult where
  calls : List SendCall
  fin : SendEnd
  sends : List SendResult
  deriving DecidableEq, Repr

/-- The inner `do ... while (ret == OS_ERROR_TRY_AGAIN)` loop of lines 88 to
102, every call with the same arguments `call`. -/
def sendLoop (call : SendCall) : List SendResult → SendLoopResult
  | [] => ⟨[call], .blocked, []⟩
  | s :: later =>
    if s.ret = .OS_SUCCESS ∧ s.actualLen = 8 then
      ⟨[call], .broke s.ret, later⟩
    else if s.ret ≠ .OS_ERROR_TRY_AGAIN then
      ⟨[call], .returned s.ret, later⟩
    else if s.ret = .OS_ERROR_TRY_AGAIN then
      let r := sendLoop call later
      ⟨call :: r.calls, r.fin, r.sends⟩
    else
      ⟨[call], .broke s.ret, later⟩

/-- How one pass through the body of the receive loop ends: at the loop test
with the current `ret`, by `return ret`, or inside a facility call. -/
inductive BodyEnd where
  | loopTest (ret : OS_Error_t)
  | returned (ret : OS_Error_t)
  | blocked
  deriving DecidableEq, Repr

/-- State after one pass through the body of the receive loop. -/
structure BodyResult where
  totalReceived : Nat
  calls : List SendCall
  yields : Nat
  sends : List SendResult
  fin : BodyEnd
  deriving DecidableEq, Repr

/-- One pass through the body of the `do ... while` loop of `handleTraffic`
(lines 54 to 119) for the receive result `r`, starting with the counter
`totalReceived` and the unread `sendto` responses `sends`. -/
def handleTrafficBody (totalReceived : Nat) (r : RecvResult)
    (sends : List SendResult) : BodyResult :=
  if r.ret = .OS_SUCCESS then
    if r.actualLen = 0 then
      ⟨totalReceived, [], 0, sends, .loopTest r.ret⟩
    else
      let totalReceived :=
        if r.buf.getD 0 0 = 0 then (totalReceived + r.actualLen) % 2 ^ 64
        else totalReceived
      let totalReceived :=
        if r.buf.getD 0 0 = 2 then 0 else totalReceived
      if r.buf.getD 0 0 = 1 ∨ r.buf.getD 0 0 = 2 then
        let buf := storeCounter r.buf totalReceived
        let s := sendLoop ⟨buf.take 8, 8, r.srcAddr⟩ sends
        ⟨totalReceived, s.calls, 0, s.sends,
          match s.fin with
          | .broke ret => .loopTest ret
          | .returned ret => .returned ret
          | .blocked => .blocked⟩
      else
        ⟨totalReceived, [], 0, sends, .loopTest r.ret⟩
  else if r.ret = .OS_ERROR_TRY_AGAIN then
    ⟨totalReceived, [], 1, sends, .loopTest r.ret⟩
  else
    ⟨totalReceived, [], 0, sends, .returned r.ret⟩

/-- Where `handleTraffic` stands when its tapes are read: returned with a
code, inside `OS_Socket_recvfrom`, or inside `OS_Socket_sendto`. -/
inductive Status where
  | returned (ret : OS_Error_t)
  | inRecvfrom
  | inSendto
  deriving DecidableEq, Repr

/-- Observable result of `handleTraffic`: the counter, all `sendto` calls, the
number of yields, the number of receive results read and the status. -/
structure Result where
  totalReceived : Nat
  calls : List SendCall
  yields : Nat
  processed : Nat
  status : Status
  deriving DecidableEq, Repr

/-- The receive loop of `handleTraffic` from the counter value
`totalReceived`. -/
def handleTrafficLoop (totalReceived : Nat) :
    List RecvResult → List SendResult → Result
  | [], _ => ⟨totalReceived, [], 0, 0, .inRecvfrom⟩
  | r :: later, sends =>
    let b := handleTrafficBody totalReceived r sends
    match b.fin with
    | .returned ret => ⟨b.totalReceived, b.calls, b.yields, 1, .returned ret⟩
    | .blocked => ⟨b.totalReceived, b.calls, b.yields, 1, .inSendto⟩
    | .loopTest ret =>
      if ret = .OS_SUCCESS ∨ ret = .OS_ERROR_TRY_AGAIN then
        let n := handleTrafficLoop b.totalReceived later b.sends
        ⟨n.totalReceived, b.calls ++ n.calls, b.yields + n.yields,
          1 + n.processed, n.status⟩
      else
        ⟨b.totalReceived, b.calls, b.yields, 1, .returned ret⟩

/-- The function `handleTraffic`: the counter starts at 0. -/
def handleTraffic (recvs : List RecvResult) (sends : List SendResult) : Result :=
  handleTrafficLoop 0 recvs sends

/-- The responses of the socket facility to the UDP component. -/
structure Facility where
  statuses : List OS_NetworkStack_State_t
  create : OS_Error_t
  bind : OS_Error_t
  recvs : List RecvResult
  sends : List SendResult
  deriving DecidableEq, Repr

/-- The function `run` of the UDP component: its exit code, or `none` while it
is still inside a facility call. -/
def run (f : Facility) : Option Int :=
  match (waitForNetworkStackInit f.statuses).ret with
  | none => none
  | some ret =>
    if .OS_SUCCESS ≠ ret then some (-1)
    else if f.create ≠ .OS_SUCCESS then some (-1)
    else if f.bind ≠ .OS_SUCCESS then some (-1)
    else
      match (handleTraffic f.recvs f.sends).status with
      | .inRecvfrom => none
      | .inSendto => none
      | .returned ret =>
        if ret = .OS_ERROR_CONNECTION_CLOSED ∨ ret = .OS_ERROR_NETWORK_CONN_SHUTDOWN then
          some 0
        else if ret ≠ .OS_SUCCESS then some (-1)
        else some 0

/-- A successful receive of at least one byte whose first byte is `cmd`. -/
abbrev isCommand (cmd : Nat) (r : RecvResult) : Prop :=
  r.ret = .OS_SUCCESS ∧ 1 ≤ r.actualLen ∧ r.buf.getD 0 0 = cmd

/-- The receive results after the last reset command (first byte 2), or all of
them when there is none: a reset empties the window, everything else joins it. -/
def sinceLastReset (recvs : List RecvResult) : List RecvResult :=
  recvs.foldl (fun window r => if isCommand 2 r then [] else window ++ [r]) []

/-- The sum of the full datagram lengths of the data datagrams (first byte 0)
among the receive results. -/
def dataBytes (recvs : List RecvResult) : Nat :=
  ((recvs.filter (fun r => decide (isCommand 0 r))).map (fun r => r.actualLen)).sum

/-- The unsigned 64-bit little-endian encoding: byte k is `(c >> 8k) mod 256`. -/
def littleEndian64 (c : Nat) : List Nat :=
  (List.range 8).map (fun k => (c >>> (8 * k)) % 256)

/-- Little-endian decoding of a byte string. -/
def decodeLittleEndian : List Nat → Nat
  | [] => 0
  | b :: later => b + 256 * decodeLittleEndian later

/-- A sample peer address. -/
def peer : OS_Socket_Addr_t := ⟨[49, 48, 46, 48, 46, 48, 46, 49], 40000⟩

/-- A sample receive result: a datagram of `len` bytes from `peer` whose first
byte is `cmd` and whose other bytes are zero, in a buffer of 4096 bytes. -/
def datagram (cmd len : Nat) : RecvResult :=
  ⟨.OS_SUCCESS, len, cmd :: List.replicate 4095 0, peer⟩

end BenchUdpThroughput

namespace BenchTcpThroughput

/-- The event record `OS_Socket_Evt_t` that `waitForIncomingConnection` copies
from the front of the event buffer. -/
structure OS_Socket_Evt_t where
  socketHandle : Int
  parentSocketHandle : Int
  eventMask : Nat
  currentError : OS_Error_t
  deriving DecidableEq, Repr

/-- The event flag constants of `OS_SocketTypes.h` that the component tests;
the header is not among the sources, so the constants are taken as given. -/
structure EventFlags where
  OS_SOCK_EV_FIN : Nat
  OS_SOCK_EV_CONN_ACPT : Nat
  OS_SOCK_EV_CLOSE : Nat
  OS_SOCK_EV_ERROR : Nat
  deriving DecidableEq, Repr

/-- One result of `OS_Socket_getPendingEvents`: the returned code, the value
stored in `numberOfSocketsWithEvents` and the record at the front of
`evtBuffer`. -/
structure PendingEvents where
  ret : OS_Error_t
  numberOfSocketsWithEvents : Int
  event : OS_Socket_Evt_t
  deriving DecidableEq, Repr

/-- One result of `OS_Socket_accept`: the returned code and the handle stored
in `hSocket`. -/
structure AcceptResult where
  ret : OS_Error_t
  hSocket : Int
  deriving DecidableEq, Repr

/-- One result of `OS_Socket_write`: the returned code and the value stored in
`actualLen`. -/
structure WriteResult where
  ret : OS_Error_t
  actualLen : Nat
  deriving DecidableEq, Repr

/-- The facility calls of the accept loop of the TCP component, in the order
they happen.  `wait` and `getPendingEvents` carry the result they reported,
`none` for a call that has not returned; `close` carries the handle of the
connection accepted in this pass of the outer loop, and `none` when `hSocket`
holds no such handle. -/
inductive Call where
  | wait (ret : Option OS_Error_t)
  | getPendingEvents (p : Option PendingEvents)
  | accept
  | write
  | close (hSocket : Option Int)
  deriving DecidableEq, Repr

/-- How one pass through the body of the loop of `waitForIncomingConnection`
ends after `OS_Socket_getPendingEvents`: `continue` (also by reaching the end
of the body) or `break` with the value of `ret`. -/
inductive Wake where
  | again
  | done (ret : OS_Error_t)
  deriving DecidableEq, Repr

/-- The body of the loop of `waitForIncomingConnection` from line 75 on, for
one result of `OS_Socket_getPendingEvents`. -/
def decodeEvents (fl : EventFlags) (srvHandleId : Int) (p : PendingEvents) : Wake :=
  if p.ret ≠ .OS_SUCCESS then .done p.ret
  else if p.numberOfSocketsWithEvents = 0 then .again
  else if p.numberOfSocketsWithEvents ≠ 1 then .done .OS_ERROR_INVALID_STATE
  else if p.event.socketHandle ≠ srvHandleId then .done .OS_ERROR_INVALID_HANDLE
  else if p.event.eventMask &&& fl.OS_SOCK_EV_FIN ≠ 0 then
    .done .OS_ERROR_NETWORK_CONN_REFUSED
  else if p.event.eventMask &&& fl.OS_SOCK_EV_CONN_ACPT ≠ 0 then
    .done .OS_SUCCESS
  else if p.event.eventMask &&& fl.OS_SOCK_EV_CLOSE ≠ 0 then
    .done .OS_ERROR_CONNECTION_CLOSED
  else if p.event.eventMask &&& fl.OS_SOCK_EV_ERROR ≠ 0 then
    .done p.event.currentError
  else .again

/-- Result of `waitForIncomingConnection`: the returned code (`none` inside a
facility call), the calls made and the unread responses. -/
structure WaitResult where
  ret : Option OS_Error_t
  trace : List Call
  waits : List OS_Error_t
  events : List PendingEvents
  deriving DecidableEq, Repr

/-- The function `waitForIncomingConnection` on the results of
`OS_Socket_wait` and of `OS_Socket_getPendingEvents`. -/
def waitForIncomingConnection (fl : EventFlags) (srvHandleId : Int) :
    List OS_Error_t → List PendingEvents → WaitResult
  | [], events => ⟨none, [.wait none], [], events⟩
  | ret :: waits, events =>
    if ret ≠ .OS_SUCCESS then ⟨some ret, [.wait (some ret)], waits, events⟩
    else
      match events with
      | [] => ⟨none, [.wait (some ret), .getPendingEvents none], waits, []⟩
      | p :: events =>
        match decodeEvents fl srvHandleId p with
        | .done ret' =>
          ⟨some ret', [.wait (some ret), .getPendingEvents (some p)], waits, events⟩
        | .again =>
          let r := waitForIncomingConnection fl srvHandleId waits events
          ⟨r.ret, .wait (some ret) :: .getPendingEvents (some p) :: r.trace, r.waits,
            r.events⟩

/-- The initialisation loop of `sendTraffic` (lines 158 to 160): `buf[i] = i`
for every index of the buffer, the store keeping the low eight bits. -/
def initBuffer (buf : List Nat) : List Nat :=
  (List.range buf.length).foldl (fun b i => b.set i (i % 256)) buf

/-- Result of `sendTraffic`: the returned code (`none` inside
`OS_Socket_write`), the number of `OS_Socket_write` calls, the number of
yields and the bytes the facility took over, in order. -/
structure SendResult where
  ret : Option OS_Error_t
  writes : Nat
  yields : Nat
  delivered : List Nat
  rest : List WriteResult
  deriving DecidableEq, Repr

/-- The `do ... while` loop of `sendTraffic` (lines 164 to 203) with the
buffer contents `buf`.  Every call passes the whole buffer; a successful
write that reports `actualLen` took the first `actualLen` bytes of it. -/
def sendTrafficLoop (buf : List Nat) : List WriteResult → SendResult
  | [] => ⟨none, 1, 0, [], []⟩
  | w :: later =>
    if w.ret = .OS_SUCCESS then
      let r := sendTrafficLoop buf later
      ⟨r.ret, 1 + r.writes, r.yields, buf.take w.actualLen ++ r.delivered, r.rest⟩
    else if w.ret = .OS_ERROR_TRY_AGAIN then
      let r := sendTrafficLoop buf later
      ⟨r.ret, 1 + r.writes, 1 + r.yields, r.delivered, r.rest⟩
    else if w.ret = .OS_ERROR_CONNECTION_CLOSED
        ∨ w.ret = .OS_ERROR_NETWORK_CONN_SHUTDOWN then
      if w.ret = .OS_SUCCESS ∨ w.ret = .OS_ERROR_TRY_AGAIN then
        let r := sendTrafficLoop buf later
        ⟨r.ret, 1 + r.writes, r.yields, r.delivered, r.rest⟩
      else ⟨some w.ret, 1, 0, [], later⟩
    else ⟨some w.ret, 1, 0, [], later⟩

/-- The function `sendTraffic`; `buf` is what the static buffer holds when the
function is entered. -/
def sendTraffic (buf : List Nat) (writes : List WriteResult) : SendResult :=
  sendTrafficLoop (initBuffer buf) writes

/-- How the inner `do ... while (ret == OS_ERROR_TRY_AGAIN)` loop of `run`
(lines 265 to 286) ends: `run` returns -1, a connection handle was accepted,
or the component is inside a facility call. -/
inductive AcceptEnd where
  | exit
  | accepted (hSocket : Int)
  | blocked
  deriving DecidableEq, Repr

/-- Result of the accept loop of `run`. -/
structure AcceptLoopResult where
  fin : AcceptEnd
  trace : List Call
  waits : List OS_Error_t
  events : List PendingEvents
  accepts : List AcceptResult
  deriving DecidableEq, Repr

/-- The inner loop of `run`, lines 265 to 286, with the failure test that
follows it. -/
def acceptConnection (fl : EventFlags) (hServer : Int) :
    List AcceptResult → List OS_Error_t → List PendingEvents → AcceptLoopResult
  | [], waits, events =>
    let w := waitForIncomingConnection fl hServer waits events
    match w.ret with
    | none => ⟨.blocked, w.trace, w.waits, w.events, []⟩
    | some ret =>
      if ret ≠ .OS_SUCCESS then
        ⟨.exit, w.trace ++ [.close none], w.waits, w.events, []⟩
      else ⟨.blocked, w.trace ++ [.accept], w.waits, w.events, []⟩
  | a :: accepts, waits, events =>
    let w := waitForIncomingConnection fl hServer waits events
    match w.ret with
    | none => ⟨.blocked, w.trace, w.waits, w.events, a :: accepts⟩
    | some ret =>
      if ret ≠ .OS_SUCCESS then
        ⟨.exit, w.trace ++ [.close none], w.waits, w.events, a :: accepts⟩
      else if a.ret = .OS_ERROR_TRY_AGAIN then
        let r := acceptConnection fl hServer accepts w.waits w.events
        ⟨r.fin, w.trace ++ .accept :: r.trace, r.waits, r.events, r.accepts⟩
      else if a.ret ≠ .OS_SUCCESS then
        ⟨.exit, w.trace ++ [.accept, .close none], w.waits, w.events, accepts⟩
      else
        ⟨.accepted a.hSocket, w.trace ++ [.accept], w.waits, w.events, accepts⟩

/-- The responses of the socket facility to the TCP component. -/
structure Facility where
  statuses : List OS_NetworkStack_State_t
  create : OS_Error_t
  hServer : Int
  bind : OS_Error_t
  listen : OS_Error_t
  waits : List OS_Error_t
  events : List PendingEvents
  accepts : List AcceptResult
  writes : List WriteResult
  deriving DecidableEq, Repr

/-- Observable result of `run`: the exit code (`none` while running), the
facility calls of the accept loop in order, and the bytes delivered on each
connection. -/
structure RunResult where
  exitCode : Option Int
  trace : List Call
  streams : List (List Nat)
  deriving DecidableEq, Repr

/-- The outer `for (;;)` loop of `run` (lines 259 to 296), at most `fuel`
passes.  `buf` is the static buffer of `sendTraffic`.  The code that
`sendTraffic` returns is only logged (lines 289 to 293): whatever it is, the
connection is closed and the loop goes on. -/
def acceptLoop (fl : EventFlags) (hServer : Int) :
    Nat → List Nat → List OS_Error_t → List PendingEvents → List AcceptResult →
    List WriteResult → RunResult
  | 0, _, _, _, _, _ => ⟨none, [], []⟩
  | fuel + 1, buf, waits, events, accepts, writes =>
    let a := acceptConnection fl hServer accepts waits events
    match a.fin with
    | .exit => ⟨some (-1), a.trace, []⟩
    | .blocked => ⟨none, a.trace, []⟩
    | .accepted hSocket =>
      let s := sendTraffic buf writes
      match s.ret with
      | none => ⟨none, a.trace ++ List.replicate s.writes .write, [s.delivered]⟩
      | some _ =>
        let n := acceptLoop fl hServer fuel (initBuffer buf) a.waits a.events a.accepts s.rest
        ⟨n.exitCode,
          a.trace ++ List.replicate s.writes .write ++ .close (some hSocket) :: n.trace,
          s.delivered :: n.streams⟩

/-- The function `run` of the TCP component.  `size` is
`OS_DATAPORT_DEFAULT_SIZE`, the length of the static buffer, which is zero
before the first connection.  Every pass of the outer loop reads a result of
`OS_Socket_wait`, so one pass more than there are results is enough. -/
def run (fl : EventFlags) (size : Nat) (f : Facility) : RunResult :=
  match (waitForNetworkStackInit f.statuses).ret with
  | none => ⟨none, [], []⟩
  | some ret =>
    if .OS_SUCCESS ≠ ret then ⟨some (-1), [], []⟩
    else if f.create ≠ .OS_SUCCESS then ⟨some (-1), [], []⟩
    else if f.bind ≠ .OS_SUCCESS then ⟨some (-1), [], []⟩
    else if f.listen ≠ .OS_SUCCESS then ⟨some (-1), [], []⟩
    else
      acceptLoop fl f.hServer (f.waits.length + 1) (List.replicate size 0)
        f.waits f.events f.accepts f.writes

/-- The responses left for the TCP component when its first connection has
been served: what the accept loop of `run` and `sendTraffic` have not read. -/
def afterFirstConnection (fl : EventFlags) (size : Nat) (f : Facility) : Facility :=
  ⟨f.statuses, f.create, f.hServer, f.bind, f.listen,
    (acceptConnection fl f.hServer f.accepts f.waits f.events).waits,
    (acceptConnection fl f.hServer f.accepts f.waits f.events).events,
    (acceptConnection fl f.hServer f.accepts f.waits f.events).accepts,
    (sendTraffic (List.replicate size 0) f.writes).rest⟩

/-- The event that `waitForIncomingConnection` accepts as the sign of an
incoming connection: a successful `OS_Socket_getPendingEvents` with exactly
one event, for the listening handle, with the FIN flag clear and either the
connection-accepted flag set or, with that and the CLOSE flag clear, the
ERROR flag set and OS_SUCCESS as the carried error code. -/
def acceptReady (fl : EventFlags) (srvHandleId : Int) (p : PendingEvents) : Prop :=
  p.ret = .OS_SUCCESS ∧ p.numberOfSocketsWithEvents = 1 ∧
  p.event.socketHandle = srvHandleId ∧
  p.event.eventMask &&& fl.OS_SOCK_EV_FIN = 0 ∧
  (p.event.eventMask &&& fl.OS_SOCK_EV_CONN_ACPT ≠ 0 ∨
    (p.event.eventMask &&& fl.OS_SOCK_EV_CLOSE = 0 ∧
      p.event.eventMask &&& fl.OS_SOCK_EV_ERROR ≠ 0 ∧
      p.event.currentError = .OS_SUCCESS))

/-- Between two consecutive calls: `OS_Socket_accept` is called only right
after a `getPendingEvents` that reported an event accepted as the sign of an
incoming connection. -/
def acceptAfterReady (fl : EventFlags) (srvHandleId : Int) (x y : Call) : Prop :=
  y = .accept → ∃ p, x = .getPendingEvents (some p) ∧ acceptReady fl srvHandleId p

/-- Between two consecutive calls: the call after the close of a served
connection is `OS_Socket_wait`. -/
def waitAfterClose (x y : Call) : Prop :=
  (∃ h, x = .close (some h)) → ∃ r, y = .wait r

/-- Between two consecutive calls: after `OS_Socket_write` comes another
`OS_Socket_write` or the close of the served connection. -/
def closeAfterWrite (x y : Call) : Prop :=
  x = .write → y = .write ∨ ∃ h, y = .close (some h)

/-- The ramp pattern of `n` bytes: byte i is i mod 256. -/
def pattern (n : Nat) : List Nat :=
  (List.range n).map (fun i => i % 256)

/-- Sample values of the event flags: four different single bits. -/
def sampleFlags : EventFlags := ⟨16, 2, 32, 64⟩

/-- A sample result of `OS_Socket_getPendingEvents`: one event with mask
`eventMask` and carried code `currentError` for the socket `socketHandle`. -/
def oneEvent (socketHandle : Int) (eventMask : Nat) (currentError : OS_Error_t) :
    PendingEvents :=
  ⟨.OS_SUCCESS, 1, ⟨socketHandle, -1, eventMask, currentError⟩⟩

/-- A sample facility for the TCP component: the stack is running, the
listening socket has handle 3 and is set up without error; the accept loop
meets the given responses. -/
def sampleFacility (waits : List OS_Error_t) (events : List PendingEvents)
    (accepts : List AcceptResult) (writes : List WriteResult) : Facility :=
  ⟨[.RUNNING], .OS_SUCCESS, 3, .OS_SUCCESS, .OS_SUCCESS, waits, events, accepts, writes⟩

/-- A sample run of the TCP component: two connections are accepted, with
handles 7 and 8.  On the first one a full write succeeds and the next write
fails with the error code -1; on the second one the first write reports that
the connection was closed. -/
def twoConnections : Facility :=
  sampleFacility [.OS_SUCCESS, .OS_SUCCESS]
    [oneEvent 3 2 .OS_SUCCESS, oneEvent 3 2 .OS_SUCCESS]
    [⟨.OS_SUCCESS, 7⟩, ⟨.OS_SUCCESS, 8⟩]
    [⟨.OS_SUCCESS, 4096⟩, ⟨.other (-1), 0⟩, ⟨.OS_ERROR_CONNECTION_CLOSED, 0⟩]

end BenchTcpThroughput

/-! ## Waiting for the network stack -/

/-- The steps of `waitForNetworkStackInit` for a run of statuses that are
neither RUNNING nor FATAL_ERROR: poll, yield once, poll, yield once, ... -/
theorem waitForNetworkStackInit_append (pre post : List OS_NetworkStack_State_t)
    (hpre : ∀ s ∈ pre, s ≠ .RUNNING ∧ s ≠ .FATAL_ERROR) :
    waitForNetworkStackInit (pre ++ post) =
      ⟨(waitForNetworkStackInit post).ret,
        pre.flatMap (fun s => [.getStatus s, .seL4_Yield])
          ++ (waitForNetworkStackInit post).steps⟩ := by
  induction pre with
  | nil => simp
  | cons s pre ih =>
    have hs := hpre s (List.mem_cons_self _ _)
    have ih := ih (fun x hx => hpre x (List.mem_cons_of_mem _ hx))
    simp [waitForNetworkStackInit, hs.1, hs.2, ih]

/-- C6: on every sequence of statuses, `waitForNetworkStackInit` yields exactly
once after each status that is neither RUNNING nor FATAL_ERROR and polls
again; it returns OS_SUCCESS at the first RUNNING, returns OS_ERROR_ABORTED at
the first FATAL_ERROR without a further poll, and has not returned as long as
only other statuses were reported. -/
theorem waitForNetworkStackInit_spec (pre post : List OS_NetworkStack_State_t)
    (hpre : ∀ s ∈ pre, s ≠ .RUNNING ∧ s ≠ .FATAL_ERROR) :
    waitForNetworkStackInit (pre ++ .RUNNING :: post) =
        ⟨some .OS_SUCCESS,
          pre.flatMap (fun s => [.getStatus s, .seL4_Yield]) ++ [.getStatus .RUNNING]⟩
      ∧ waitForNetworkStackInit (pre ++ .FATAL_ERROR :: post) =
        ⟨some .OS_ERROR_ABORTED,
          pre.flatMap (fun s => [.getStatus s, .seL4_Yield]) ++ [.getStatus .FATAL_ERROR]⟩
      ∧ waitForNetworkStackInit pre =
        ⟨none, pre.flatMap (fun s => [.getStatus s, .seL4_Yield])⟩ := by
  refine ⟨?_, ?_, ?_⟩
  · rw [waitForNetworkStackInit_append pre _ hpre]
    simp [waitForNetworkStackInit]
  · rw [waitForNetworkStackInit_append pre _ hpre]
    simp [waitForNetworkStackInit]
  · have h := waitForNetworkStackInit_append pre [] hpre
    simpa [waitForNetworkStackInit] using h

/-- C6 at a concrete input: two other statuses, then the deciding one. -/
theorem waitForNetworkStackInit_spec_witness :
    (∀ s ∈ [OS_NetworkStack_State_t.other 0, .other 1], s ≠ .RUNNING ∧ s ≠ .FATAL_ERROR)
      ∧ waitForNetworkStackInit ([.other 0, .other 1] ++ .RUNNING :: [.FATAL_ERROR]) =
        ⟨some .OS_SUCCESS,
          [.getStatus (.other 0), .seL4_Yield, .getStatus (.other 1), .seL4_Yield,
            .getStatus .RUNNING]⟩
      ∧ waitForNetworkStackInit ([.other 0, .other 1] ++ .FATAL_ERROR :: [.RUNNING]) =
        ⟨some .OS_ERROR_ABORTED,
          [.getStatus (.other 0), .seL4_Yield, .getStatus (.other 1), .seL4_Yield,
            .getStatus .FATAL_ERROR]⟩
      ∧ waitForNetworkStackInit [.other 0, .other 1] =
        ⟨none,
          [.getStatus (.other 0), .seL4_Yield, .getStatus (.other 1), .seL4_Yield]⟩ :=
  ⟨by decide,
    waitForNetworkStackInit_spec [.other 0, .other 1] [.FATAL_ERROR] (by decide) |>.1,
    waitForNetworkStackInit_spec [.other 0, .other 1] [.RUNNING] (by decide) |>.2.1,
    waitForNetworkStackInit_spec [.other 0, .other 1] [] (by decide) |>.2.2⟩

/-! ## UDP counter-exchange protocol -/

namespace BenchUdpThroughput

/-- Every call of the send loop has the arguments it was started with. -/
theorem sendLoop_calls (call : SendCall) (sends : List SendResult) :
    ∀ c ∈ (sendLoop call sends).calls, c = call := by
  induction sends with
  | nil => simp [sendLoop]
  | cons s later ih =>
    unfold sendLoop
    split_ifs
    · simp
    · simp
    · simpa using ih
    · simp

/-- The send loop calls `OS_Socket_sendto` at least once. -/
theorem sendLoop_calls_ne_nil (call : SendCall) (sends : List SendResult) :
    (sendLoop call sends).calls ≠ [] := by
  cases sends with
  | nil => simp [sendLoop]
  | cons s later =>
    unfold sendLoop
    split_ifs <;> simp

/-- After the eight stores the front of the buffer is the little-endian
encoding of the counter. -/
theorem storeCounter_take (buf : List Nat) (c : Nat) (h : 8 ≤ buf.length) :
    (storeCounter buf c).take 8 = littleEndian64 c := by
  match buf, h with
  | _ :: _ :: _ :: _ :: _ :: _ :: _ :: _ :: _, _ =>
    simp [storeCounter, littleEndian64, List.range, List.range.loop]

/-- Decoding the encoding of a 64-bit value gives the value back. -/
theorem decode_littleEndian64 (c : Nat) (h : c < 2 ^ 64) :
    decodeLittleEndian (littleEndian64 c) = c := by
  simp only [littleEndian64, List.range, List.range.loop, List.map, decodeLittleEndian,
    Nat.shiftRight_eq_div_pow]
  omega

/-- The counter after one pass through the loop body, whatever the sends do. -/
theorem handleTrafficBody_totalReceived (C : Nat) (r : RecvResult)
    (sends : List SendResult) :
    (handleTrafficBody C r sends).totalReceived =
      if isCommand 0 r then (C + r.actualLen) % 2 ^ 64
      else if isCommand 2 r then 0 else C := by
  unfold handleTrafficBody
  delta isCommand
  generalize r.buf.getD 0 0 = b
  by_cases h1 : r.ret = .OS_SUCCESS
  · by_cases h2 : r.actualLen = 0
    · simp [h1, h2]
    · have h3 : 1 ≤ r.actualLen := Nat.one_le_iff_ne_zero.mpr h2
      by_cases h4 : b = 0
      · simp [h1, h2, h3, h4]
      · by_cases h5 : b = 2
        · simp [h1, h2, h3, h5]
        · by_cases h6 : b = 1
          · simp [h1, h2, h3, h6]
          · simp [h1, h2, h3, h4, h5, h6]
  · by_cases h2 : r.ret = .OS_ERROR_TRY_AGAIN
    · simp [h1, h2]
    · simp [h1, h2]

/-- The `sendto` calls of one pass through the loop body. -/
theorem handleTrafficBody_calls (C : Nat) (r : RecvResult) (sends : List SendResult) :
    (handleTrafficBody C r sends).calls =
      if isCommand 1 r ∨ isCommand 2 r then
        (sendLoop ⟨(storeCounter r.buf (if isCommand 2 r then 0 else C)).take 8, 8,
          r.srcAddr⟩ sends).calls
      else [] := by
  unfold handleTrafficBody
  delta isCommand
  generalize r.buf.getD 0 0 = b
  by_cases h1 : r.ret = .OS_SUCCESS
  · by_cases h2 : r.actualLen = 0
    · simp [h1, h2]
    · have h3 : 1 ≤ r.actualLen := Nat.one_le_iff_ne_zero.mpr h2
      by_cases h4 : b = 0
      · simp [h1, h2, h3, h4]
      · by_cases h5 : b = 2
        · simp [h1, h2, h3, h5]
        · by_cases h6 : b = 1
          · simp [h1, h2, h3, h6]
          · simp [h1, h2, h3, h4, h5, h6]
  · by_cases h2 : r.ret = .OS_ERROR_TRY_AGAIN
    · simp [h1, h2]
    · simp [h1, h2]


/-- The bytes of the encoding, one by one. -/
theorem littleEndian64_getD (c k : Nat) (hk : k < 8) :
    (littleEndian64 c).getD k 0 = (c >>> (8 * k)) % 256 := by
  interval_cases k <;> simp [littleEndian64, List.range, List.range.loop]

/-- The encoding has eight bytes. -/
theorem littleEndian64_length (c : Nat) : (littleEndian64 c).length = 8 := by
  simp [littleEndian64]

/-- C2: for a counter value C, every `sendto` call that one pass of
`handleTraffic` makes for a query (first byte 1) passes exactly 8 bytes, the
unsigned 64-bit little-endian encoding of C (byte k is (C >> 8k) mod 256, and
decoding gives C back); for a reset-and-query (first byte 2) it passes 8 zero
bytes, whatever C was.  In both cases the bytes encode the counter after the
command's update, and at least one call is made. -/
theorem reply_is_little_endian_counter (C : Nat) (r : RecvResult)
    (sends : List SendResult) (hC : C < 2 ^ 64) (hbuf : 8 ≤ r.buf.length) :
    (isCommand 1 r →
        (handleTrafficBody C r sends).calls ≠ [] ∧
        (handleTrafficBody C r sends).totalReceived = C ∧
        ∀ c ∈ (handleTrafficBody C r sends).calls,
          c.len = 8 ∧ c.data.length = 8 ∧
          (∀ k, k < 8 → c.data.getD k 0 = (C >>> (8 * k)) % 256) ∧
          decodeLittleEndian c.data = C)
      ∧ (isCommand 2 r →
        (handleTrafficBody C r sends).calls ≠ [] ∧
        (handleTrafficBody C r sends).totalReceived = 0 ∧
        ∀ c ∈ (handleTrafficBody C r sends).calls,
          c.len = 8 ∧ c.data = [0, 0, 0, 0, 0, 0, 0, 0]) := by
  constructor
  · intro h1
    have h0 : ¬ isCommand 0 r := fun h => by
      have := h1.2.2.symm.trans h.2.2
      omega
    have h2 : ¬ isCommand 2 r := fun h => by
      have := h1.2.2.symm.trans h.2.2
      omega
    rw [handleTrafficBody_calls, handleTrafficBody_totalReceived]
    simp only [if_pos (Or.inl h1 : isCommand 1 r ∨ isCommand 2 r), if_neg h0, if_neg h2]
    refine ⟨sendLoop_calls_ne_nil _ _, trivial, ?_⟩
    intro c hc
    rw [sendLoop_calls _ _ c hc]
    rw [storeCounter_take r.buf C hbuf]
    exact ⟨rfl, littleEndian64_length C, fun k hk => littleEndian64_getD C k hk,
      decode_littleEndian64 C hC⟩
  · intro h2
    have h0 : ¬ isCommand 0 r := fun h => by
      have := h2.2.2.symm.trans h.2.2
      omega
    rw [handleTrafficBody_calls, handleTrafficBody_totalReceived]
    simp only [if_pos (Or.inr h2 : isCommand 1 r ∨ isCommand 2 r), if_neg h0, if_pos h2]
    refine ⟨sendLoop_calls_ne_nil _ _, trivial, ?_⟩
    intro c hc
    rw [sendLoop_calls _ _ c hc]
    rw [storeCounter_take r.buf 0 hbuf]
    exact ⟨rfl, by simp [littleEndian64, List.range, List.range.loop]⟩

/-- C2 at concrete inputs: a query at counter 258 and a reset at counter 258,
each answered after one try-again. -/
theorem reply_is_little_endian_counter_witness :
    ((258 : Nat) < 2 ^ 64 ∧ 8 ≤ [1, 7, 7, 7, 7, 7, 7, 7, 7, 7].length
        ∧ isCommand 1 ⟨.OS_SUCCESS, 10, [1, 7, 7, 7, 7, 7, 7, 7, 7, 7], ⟨[10, 0, 0, 1], 5560⟩⟩
        ∧ 8 ≤ [2, 7, 7, 7, 7, 7, 7, 7, 7, 7].length
        ∧ isCommand 2 ⟨.OS_SUCCESS, 10, [2, 7, 7, 7, 7, 7, 7, 7, 7, 7], ⟨[10, 0, 0, 1], 5560⟩⟩)
      ∧ (∀ c ∈ (handleTrafficBody 258
            ⟨.OS_SUCCESS, 10, [1, 7, 7, 7, 7, 7, 7, 7, 7, 7], ⟨[10, 0, 0, 1], 5560⟩⟩
            [⟨.OS_ERROR_TRY_AGAIN, 0⟩, ⟨.OS_SUCCESS, 8⟩]).calls,
          c.len = 8 ∧ c.data.length = 8 ∧
          (∀ k, k < 8 → c.data.getD k 0 = (258 >>> (8 * k)) % 256) ∧
          decodeLittleEndian c.data = 258)
      ∧ (∀ c ∈ (handleTrafficBody 258
            ⟨.OS_SUCCESS, 10, [2, 7, 7, 7, 7, 7, 7, 7, 7, 7], ⟨[10, 0, 0, 1], 5560⟩⟩
            [⟨.OS_ERROR_TRY_AGAIN, 0⟩, ⟨.OS_SUCCESS, 8⟩]).calls,
          c.len = 8 ∧ c.data = [0, 0, 0, 0, 0, 0, 0, 0]) :=
  ⟨⟨by norm_num, by decide, by decide, by decide, by decide⟩,
    ((reply_is_little_endian_counter 258
      ⟨.OS_SUCCESS, 10, [1, 7, 7, 7, 7, 7, 7, 7, 7, 7], ⟨[10, 0, 0, 1], 5560⟩⟩
      [⟨.OS_ERROR_TRY_AGAIN, 0⟩, ⟨.OS_SUCCESS, 8⟩] (by norm_num) (by decide)).1
        (by decide)).2.2,
    ((reply_is_little_endian_counter 258
      ⟨.OS_SUCCESS, 10, [2, 7, 7, 7, 7, 7, 7, 7, 7, 7], ⟨[10, 0, 0, 1], 5560⟩⟩
      [⟨.OS_ERROR_TRY_AGAIN, 0⟩, ⟨.OS_SUCCESS, 8⟩] (by norm_num) (by decide)).2
        (by decide)).2.2⟩

/-- C3: one pass of `handleTraffic` calls `sendto` if and only if the receive
succeeded with length at least 1 and the first byte is 1 or 2; a data
datagram (first byte 0) of any length causes no call; and every call goes to
the sender address stored by that same receive. -/
theorem sendto_iff_query_or_reset (C : Nat) (r : RecvResult) (sends : List SendResult) :
    ((handleTrafficBody C r sends).calls ≠ [] ↔
        r.ret = .OS_SUCCESS ∧ 1 ≤ r.actualLen ∧ (r.buf.getD 0 0 = 1 ∨ r.buf.getD 0 0 = 2))
      ∧ (r.ret = .OS_SUCCESS → r.buf.getD 0 0 = 0 → (handleTrafficBody C r sends).calls = [])
      ∧ ∀ c ∈ (handleTrafficBody C r sends).calls, c.dstAddr = r.srcAddr := by
  rw [handleTrafficBody_calls]
  by_cases h : isCommand 1 r ∨ isCommand 2 r
  · rw [if_pos h]
    refine ⟨⟨fun _ => ?_, fun _ => sendLoop_calls_ne_nil _ _⟩, ?_, ?_⟩
    · rcases h with h | h
      · exact ⟨h.1, h.2.1, Or.inl h.2.2⟩
      · exact ⟨h.1, h.2.1, Or.inr h.2.2⟩
    · intro _ h0
      rcases h with h | h <;> · have := h0.symm.trans h.2.2; omega
    · intro c hc
      rw [sendLoop_calls _ _ c hc]
  · rw [if_neg h]
    refine ⟨⟨fun hne => absurd rfl hne, fun hq => ?_⟩, fun _ _ => rfl, ?_⟩
    · exfalso
      apply h
      rcases hq with ⟨a, b, c | c⟩
      · exact Or.inl ⟨a, b, c⟩
      · exact Or.inr ⟨a, b, c⟩
    · intro c hc
      simp at hc


/-- A run of the receive loop over results none of which is a data or a reset
datagram keeps the counter, and every reply it sends encodes that counter. -/
theorem handleTrafficLoop_frame (C : Nat) (recvs : List RecvResult) :
    ∀ sends : List SendResult,
      (∀ x ∈ recvs, ¬ isCommand 0 x ∧ ¬ isCommand 2 x) →
      (∀ x ∈ recvs, isCommand 1 x → 8 ≤ x.buf.length) →
      (handleTrafficLoop C recvs sends).totalReceived = C ∧
      ∀ c ∈ (handleTrafficLoop C recvs sends).calls,
        c.data = littleEndian64 C ∧ c.len = 8 := by
  induction recvs with
  | nil => intro sends _ _; simp [handleTrafficLoop]
  | cons r later ih =>
    intro sends hno hlen
    have hr := hno r (List.mem_cons_self _ _)
    have hb : (handleTrafficBody C r sends).totalReceived = C := by
      rw [handleTrafficBody_totalReceived, if_neg hr.1, if_neg hr.2]
    have hc : ∀ c ∈ (handleTrafficBody C r sends).calls,
        c.data = littleEndian64 C ∧ c.len = 8 := by
      rw [handleTrafficBody_calls]
      by_cases h1 : isCommand 1 r
      · rw [if_pos (Or.inl h1), if_neg hr.2]
        intro c hc
        rw [sendLoop_calls _ _ c hc]
        exact ⟨storeCounter_take r.buf C (hlen r (List.mem_cons_self _ _) h1), rfl⟩
      · rw [if_neg (fun h => h.elim h1 hr.2)]
        intro c hc
        simp at hc
    have ih := ih (handleTrafficBody C r sends).sends
      (fun x hx => hno x (List.mem_cons_of_mem _ hx))
      (fun x hx => hlen x (List.mem_cons_of_mem _ hx))
    unfold handleTrafficLoop
    simp only []
    split
    · exact ⟨hb, hc⟩
    · exact ⟨hb, hc⟩
    · split
      · rw [hb]
        refine ⟨ih.1, fun c hc2 => ?_⟩
        rcases List.mem_append.mp hc2 with h | h
        · exact hc c h
        · exact ih.2 c h
      · exact ⟨hb, hc⟩

/-- A query whose reply is sent completely at the first attempt: one `sendto`
call with the first 8 bytes of the buffer to the sender, one response read,
the counter unchanged, and the pass ends at the loop test with OS_SUCCESS. -/
theorem handleTrafficBody_query_sent (C : Nat) (r : RecvResult) (s : SendResult)
    (later : List SendResult) (h1 : isCommand 1 r) (hs : s.ret = .OS_SUCCESS)
    (hl : s.actualLen = 8) :
    handleTrafficBody C r (s :: later) =
      ⟨C, [⟨(storeCounter r.buf C).take 8, 8, r.srcAddr⟩], 0, later,
        .loopTest .OS_SUCCESS⟩ := by
  obtain ⟨a, b, c⟩ := h1
  have hne : r.actualLen ≠ 0 := by omega
  unfold handleTrafficBody
  rw [if_pos a, if_neg hne]
  simp only [c]
  simp [sendLoop, hs, hl]

/-- A receive that succeeds or reports try-again and is no data, query or
reset datagram: no `sendto` call, no response read, the counter unchanged,
and the pass ends at the loop test with the code of the receive. -/
theorem handleTrafficBody_idle (C : Nat) (r : RecvResult) (sends : List SendResult)
    (hr : r.ret = .OS_SUCCESS ∨ r.ret = .OS_ERROR_TRY_AGAIN)
    (h0 : ¬ isCommand 0 r) (h1 : ¬ isCommand 1 r) (h2 : ¬ isCommand 2 r) :
    (handleTrafficBody C r sends).totalReceived = C
      ∧ (handleTrafficBody C r sends).calls = []
      ∧ (handleTrafficBody C r sends).sends = sends
      ∧ (handleTrafficBody C r sends).fin = .loopTest r.ret := by
  unfold handleTrafficBody
  rcases hr with hr | hr
  · by_cases hz : r.actualLen = 0
    · rw [if_pos hr, if_pos hz]
      exact ⟨rfl, rfl, rfl, rfl⟩
    · have hlen : 1 ≤ r.actualLen := Nat.one_le_iff_ne_zero.mpr hz
      have n0 : ¬ r.buf.getD 0 0 = 0 := fun h => h0 ⟨hr, hlen, h⟩
      have n1 : ¬ r.buf.getD 0 0 = 1 := fun h => h1 ⟨hr, hlen, h⟩
      have n2 : ¬ r.buf.getD 0 0 = 2 := fun h => h2 ⟨hr, hlen, h⟩
      rw [if_pos hr, if_neg hz]
      simp only [if_neg n0, if_neg n2, if_neg (fun h : _ ∨ _ => h.elim n1 n2)]
      exact ⟨trivial, trivial, trivial, trivial⟩
  · have hn : ¬ r.ret = .OS_SUCCESS := by rw [hr]; decide
    rw [if_neg hn, if_pos hr]
    exact ⟨rfl, rfl, rfl, rfl⟩

/-- A run of the receive loop from counter C over receives that succeed or
report try-again, with no data and no reset datagram among them, when every
`sendto` sends all 8 bytes at once and there is a response for every query:
every query, and nothing else, is answered, in order, by one call with the
encoding of C to its sender; all receive results are read and the counter is
still C. -/
theorem handleTrafficLoop_replies (C : Nat) (recvs : List RecvResult) :
    ∀ sends : List SendResult,
      (∀ x ∈ recvs, (x.ret = .OS_SUCCESS ∨ x.ret = .OS_ERROR_TRY_AGAIN) ∧
        ¬ isCommand 0 x ∧ ¬ isCommand 2 x) →
      (∀ x ∈ recvs, isCommand 1 x → 8 ≤ x.buf.length) →
      (∀ s ∈ sends, s.ret = .OS_SUCCESS ∧ s.actualLen = 8) →
      (recvs.filter (fun x => decide (isCommand 1 x))).length ≤ sends.length →
      (handleTrafficLoop C recvs sends).calls =
          (recvs.filter (fun x => decide (isCommand 1 x))).map
            (fun x => ⟨littleEndian64 C, 8, x.srcAddr⟩)
        ∧ (handleTrafficLoop C recvs sends).totalReceived = C
        ∧ (handleTrafficLoop C recvs sends).processed = recvs.length
        ∧ (handleTrafficLoop C recvs sends).status = .inRecvfrom := by
  induction recvs with
  | nil => intro sends _ _ _ _; simp [handleTrafficLoop]
  | cons r later ih =>
    intro sends hno hlen hs hcount
    obtain ⟨hret, h0, h2⟩ := hno r (List.mem_cons_self _ _)
    have hno' : ∀ x ∈ later, (x.ret = .OS_SUCCESS ∨ x.ret = .OS_ERROR_TRY_AGAIN) ∧
        ¬ isCommand 0 x ∧ ¬ isCommand 2 x := fun x hx => hno x (List.mem_cons_of_mem _ hx)
    have hlen' : ∀ x ∈ later, isCommand 1 x → 8 ≤ x.buf.length :=
      fun x hx => hlen x (List.mem_cons_of_mem _ hx)
    by_cases h1 : isCommand 1 r
    · have hp : (fun x => decide (isCommand 1 x)) r = true := decide_eq_true h1
      rw [@List.filter_cons_of_pos _ (fun x => decide (isCommand 1 x)) r later hp] at hcount ⊢
      cases sends with
      | nil => simp at hcount
      | cons s rest =>
        obtain ⟨hs1, hs2⟩ := hs s (List.mem_cons_self _ _)
        have ih := ih rest hno' hlen' (fun x hx => hs x (List.mem_cons_of_mem _ hx))
          (by simpa using hcount)
        unfold handleTrafficLoop
        simp only [handleTrafficBody_query_sent C r s rest h1 hs1 hs2, true_or, if_true]
        rw [storeCounter_take r.buf C (hlen r (List.mem_cons_self _ _) h1)]
        refine ⟨?_, ih.2.1, ?_, ih.2.2.2⟩
        · rw [ih.1]
          rfl
        · rw [ih.2.2.1, List.length_cons]
          omega
    · have hp : ¬ (fun x => decide (isCommand 1 x)) r = true := by simpa using h1
      rw [@List.filter_cons_of_neg _ (fun x => decide (isCommand 1 x)) r later hp] at hcount ⊢
      obtain ⟨b1, b2, b3, b4⟩ := handleTrafficBody_idle C r sends hret h0 h1 h2
      have ih := ih sends hno' hlen' hs hcount
      unfold handleTrafficLoop
      simp only [b1, b2, b3, b4, if_pos hret]
      refine ⟨?_, ih.2.1, ?_, ih.2.2.2⟩
      · rw [ih.1]
        rfl
      · rw [ih.2.2.1, List.length_cons]
        omega

/-- C4: for every counter value C, a pass of `handleTraffic` whose receive is
a zero-length success, a datagram of length at least 1 with first byte
outside 0, 1, 2, or a query datagram (first byte 1) leaves the counter equal
to C, and in the first two cases no `sendto` call is made.  Two consecutive
query datagrams are both answered, whatever the `sendto` results are, and
every reply to the second carries the same 8 bytes as every reply to the
first, the encoding of C.  In a run over receive results with no data and no
reset datagram among them the counter stays C and all replies are the same 8
bytes; when in such a run every receive succeeds or reports try-again and
every `sendto` sends all 8 bytes at once, each query is answered by exactly
one call with the encoding of C to its sender, and nothing else is sent. -/
theorem counter_frame (C : Nat) (r : RecvResult) (sends : List SendResult) :
    (r.ret = .OS_SUCCESS → r.actualLen = 0 →
        (handleTrafficBody C r sends).totalReceived = C ∧
        (handleTrafficBody C r sends).calls = [])
      ∧ (r.ret = .OS_SUCCESS → 1 ≤ r.actualLen →
          r.buf.getD 0 0 ≠ 0 → r.buf.getD 0 0 ≠ 1 → r.buf.getD 0 0 ≠ 2 →
        (handleTrafficBody C r sends).totalReceived = C ∧
        (handleTrafficBody C r sends).calls = [])
      ∧ (isCommand 1 r → (handleTrafficBody C r sends).totalReceived = C)
      ∧ (∀ recvs : List RecvResult,
          (∀ x ∈ recvs, ¬ isCommand 0 x ∧ ¬ isCommand 2 x) →
          (∀ x ∈ recvs, isCommand 1 x → 8 ≤ x.buf.length) →
          (handleTrafficLoop C recvs sends).totalReceived = C ∧
          ∀ c₁ ∈ (handleTrafficLoop C recvs sends).calls,
            ∀ c₂ ∈ (handleTrafficLoop C recvs sends).calls,
              c₁.data = c₂.data ∧ c₁.data.length = 8 ∧ c₁.len = 8)
      ∧ (∀ (r₁ r₂ : RecvResult) (s₁ s₂ : List SendResult),
          isCommand 1 r₁ → isCommand 1 r₂ → 8 ≤ r₁.buf.length → 8 ≤ r₂.buf.length →
          (handleTrafficBody C r₁ s₁).calls ≠ [] ∧
          (handleTrafficBody (handleTrafficBody C r₁ s₁).totalReceived r₂ s₂).calls ≠ [] ∧
          ∀ c₁ ∈ (handleTrafficBody C r₁ s₁).calls,
            ∀ c₂ ∈ (handleTrafficBody (handleTrafficBody C r₁ s₁).totalReceived r₂ s₂).calls,
              c₁.data = littleEndian64 C ∧ c₂.data = c₁.data ∧ c₁.data.length = 8 ∧
              c₁.len = 8 ∧ c₂.len = 8 ∧
              c₁.dstAddr = r₁.srcAddr ∧ c₂.dstAddr = r₂.srcAddr)
      ∧ (∀ recvs : List RecvResult,
          (∀ x ∈ recvs, (x.ret = .OS_SUCCESS ∨ x.ret = .OS_ERROR_TRY_AGAIN) ∧
            ¬ isCommand 0 x ∧ ¬ isCommand 2 x) →
          (∀ x ∈ recvs, isCommand 1 x → 8 ≤ x.buf.length) →
          (∀ s ∈ sends, s.ret = .OS_SUCCESS ∧ s.actualLen = 8) →
          (recvs.filter (fun x => decide (isCommand 1 x))).length ≤ sends.length →
          (handleTrafficLoop C recvs sends).calls =
            (recvs.filter (fun x => decide (isCommand 1 x))).map
              (fun x => ⟨littleEndian64 C, 8, x.srcAddr⟩)
          ∧ (handleTrafficLoop C recvs sends).totalReceived = C
          ∧ (handleTrafficLoop C recvs sends).processed = recvs.length) := by
  have key : ∀ r : RecvResult, ¬ isCommand 0 r → ¬ isCommand 1 r → ¬ isCommand 2 r →
      (handleTrafficBody C r sends).totalReceived = C ∧
      (handleTrafficBody C r sends).calls = [] := by
    intro r h0 h1 h2
    rw [handleTrafficBody_totalReceived, handleTrafficBody_calls, if_neg h0, if_neg h2,
      if_neg (fun h => h.elim h1 h2)]
    exact ⟨rfl, rfl⟩
  have query : ∀ (D : Nat) (q : RecvResult) (s : List SendResult), isCommand 1 q →
      8 ≤ q.buf.length →
      (handleTrafficBody D q s).totalReceived = D ∧ (handleTrafficBody D q s).calls ≠ [] ∧
      ∀ c ∈ (handleTrafficBody D q s).calls,
        c.data = littleEndian64 D ∧ c.len = 8 ∧ c.dstAddr = q.srcAddr := by
    intro D q s h1 hb
    have n0 : ¬ isCommand 0 q := fun h => by have := h1.2.2.symm.trans h.2.2; omega
    have n2 : ¬ isCommand 2 q := fun h => by have := h1.2.2.symm.trans h.2.2; omega
    rw [handleTrafficBody_totalReceived, handleTrafficBody_calls, if_neg n0, if_neg n2,
      if_pos (Or.inl h1)]
    refine ⟨rfl, sendLoop_calls_ne_nil _ _, fun c hc => ?_⟩
    rw [sendLoop_calls _ _ c hc]
    exact ⟨storeCounter_take q.buf D hb, rfl, rfl⟩
  refine ⟨?_, ?_, ?_, ?_, ?_, ?_⟩
  · intro _ hz
    exact key r (fun h => by have := h.2.1; omega) (fun h => by have := h.2.1; omega)
      (fun h => by have := h.2.1; omega)
  · intro _ _ n0 n1 n2
    exact key r (fun h => n0 h.2.2) (fun h => n1 h.2.2) (fun h => n2 h.2.2)
  · intro h1
    rw [handleTrafficBody_totalReceived,
      if_neg (fun h => by have := h1.2.2.symm.trans h.2.2; omega),
      if_neg (fun h => by have := h1.2.2.symm.trans h.2.2; omega)]
  · intro recvs hno hlen
    have h := handleTrafficLoop_frame C recvs sends hno hlen
    refine ⟨h.1, fun c₁ h₁ c₂ h₂ => ⟨?_, ?_, (h.2 c₁ h₁).2⟩⟩
    · rw [(h.2 c₁ h₁).1, (h.2 c₂ h₂).1]
    · rw [(h.2 c₁ h₁).1]
      exact littleEndian64_length C
  · intro r₁ r₂ s₁ s₂ q₁ q₂ b₁ b₂
    obtain ⟨t₁, n₁, e₁⟩ := query C r₁ s₁ q₁ b₁
    rw [t₁]
    obtain ⟨_, n₂, e₂⟩ := query C r₂ s₂ q₂ b₂
    refine ⟨n₁, n₂, fun c₁ h₁ c₂ h₂ => ?_⟩
    obtain ⟨d₁, l₁, a₁⟩ := e₁ c₁ h₁
    obtain ⟨d₂, l₂, a₂⟩ := e₂ c₂ h₂
    exact ⟨d₁, d₂.trans d₁.symm, by rw [d₁]; exact littleEndian64_length C, l₁, l₂, a₁, a₂⟩
  · intro recvs hno hlen hs hcount
    have h := handleTrafficLoop_replies C recvs sends hno hlen hs hcount
    exact ⟨h.1, h.2.1, h.2.2.1⟩


/-- The sample datagrams sit in a buffer of 4096 bytes. -/
theorem datagram_buf_length (cmd len : Nat) : (datagram cmd len).buf.length = 4096 := by
  unfold datagram
  rw [List.length_cons, List.length_replicate]

/-- C4 at concrete inputs: a zero-length receive, an unknown command 9 and a
query at counter 258; two consecutive queries, the first answered after a
try-again; and a run of two queries with a try-again and an unknown command
between them, in which exactly the two queries are answered with the encoding
of 258. -/
theorem counter_frame_witness :
    ((handleTrafficBody 258 (datagram 0 0) []).totalReceived = 258 ∧
        (handleTrafficBody 258 (datagram 0 0) []).calls = [])
      ∧ ((handleTrafficBody 258 (datagram 9 3) []).totalReceived = 258 ∧
        (handleTrafficBody 258 (datagram 9 3) []).calls = [])
      ∧ (handleTrafficBody 258 (datagram 1 3) []).totalReceived = 258
      ∧ ((handleTrafficBody 258 (datagram 1 1)
            [⟨.OS_ERROR_TRY_AGAIN, 0⟩, ⟨.OS_SUCCESS, 8⟩]).calls ≠ [] ∧
          (handleTrafficBody
            (handleTrafficBody 258 (datagram 1 1)
              [⟨.OS_ERROR_TRY_AGAIN, 0⟩, ⟨.OS_SUCCESS, 8⟩]).totalReceived
            (datagram 1 5) [⟨.OS_SUCCESS, 8⟩]).calls ≠ [])
      ∧ (handleTrafficLoop 258
            [datagram 1 1, ⟨.OS_ERROR_TRY_AGAIN, 0, [], peer⟩, datagram 9 3, datagram 1 1]
            [⟨.OS_SUCCESS, 8⟩, ⟨.OS_SUCCESS, 8⟩]).calls
          = [⟨littleEndian64 258, 8, peer⟩, ⟨littleEndian64 258, 8, peer⟩]
      ∧ littleEndian64 258 = [2, 1, 0, 0, 0, 0, 0, 0] :=
  have hbuf : ∀ x ∈ [datagram 1 1, ⟨.OS_ERROR_TRY_AGAIN, 0, [], peer⟩, datagram 9 3,
      datagram 1 1], isCommand 1 x → 8 ≤ x.buf.length := by
    intro x hx h1
    simp only [List.mem_cons, List.mem_singleton, List.not_mem_nil, or_false] at hx
    rcases hx with rfl | rfl | rfl | rfl
    · rw [datagram_buf_length]; decide
    · exact absurd h1.1 (by decide)
    · rw [datagram_buf_length]; decide
    · rw [datagram_buf_length]; decide
  have two := (counter_frame 258 (datagram 0 0) []).2.2.2.2.1 (datagram 1 1) (datagram 1 5)
    [⟨.OS_ERROR_TRY_AGAIN, 0⟩, ⟨.OS_SUCCESS, 8⟩] [⟨.OS_SUCCESS, 8⟩]
    ⟨rfl, by decide, rfl⟩ ⟨rfl, by decide, rfl⟩
    (by rw [datagram_buf_length]; decide) (by rw [datagram_buf_length]; decide)
  ⟨(counter_frame 258 (datagram 0 0) []).1 rfl rfl,
    (counter_frame 258 (datagram 9 3) []).2.1 rfl (by decide) (by decide) (by decide)
      (by decide),
    (counter_frame 258 (datagram 1 3) []).2.2.1 ⟨rfl, by decide, rfl⟩,
    ⟨two.1, two.2.1⟩,
    ((counter_frame 258 (datagram 0 0) [⟨.OS_SUCCESS, 8⟩, ⟨.OS_SUCCESS, 8⟩]).2.2.2.2.2
      [datagram 1 1, ⟨.OS_ERROR_TRY_AGAIN, 0, [], peer⟩, datagram 9 3, datagram 1 1]
      (by decide) hbuf (by decide) (by decide)).1,
    by decide⟩

/-- In a sample run from counter 258 with two queries, a try-again and an
unknown command between them, both queries are answered with the encoding of
258. -/
theorem counter_frame_sample_calls :
    ((handleTrafficLoop 258
        [datagram 1 1, ⟨.OS_ERROR_TRY_AGAIN, 0, [], peer⟩, datagram 9 3, datagram 1 1]
        [⟨.OS_SUCCESS, 8⟩, ⟨.OS_SUCCESS, 8⟩]).calls.map (fun c => c.data))
      = [[2, 1, 0, 0, 0, 0, 0, 0], [2, 1, 0, 0, 0, 0, 0, 0]] := by
  decide

/-- The send loop after any number of try-again results: `sendto` is called
once more with the same arguments each time, and the first other result ends
the loop, by `break` when it is OS_SUCCESS with all 8 bytes sent and by
`return ret` otherwise. -/
theorem sendLoop_retries (call : SendCall) (tries : List SendResult) (s : SendResult)
    (later : List SendResult) (ht : ∀ t ∈ tries, t.ret = .OS_ERROR_TRY_AGAIN)
    (hs : s.ret ≠ .OS_ERROR_TRY_AGAIN) :
    sendLoop call (tries ++ s :: later) =
      ⟨List.replicate (tries.length + 1) call,
        if s.ret = .OS_SUCCESS ∧ s.actualLen = 8 then .broke s.ret else .returned s.ret,
        later⟩ := by
  induction tries with
  | nil =>
    simp only [List.nil_append, sendLoop, List.length_nil]
    split_ifs <;> rfl
  | cons t tries ih =>
    have h1 : t.ret = .OS_ERROR_TRY_AGAIN := ht t (List.mem_cons_self _ _)
    have ih := ih (fun x hx => ht x (List.mem_cons_of_mem _ hx))
    rw [List.cons_append, sendLoop]
    simp only [h1, ih]
    simp [List.replicate_succ]

/-- Evaluation for C8 at the failing input: a query whose reply `sendto` reports OS_SUCCESS
with only 4 of the 8 bytes sent.  The send loop neither breaks nor retries;
`handleTraffic` returns the code of that call, OS_SUCCESS, and `run` then
closes the socket and exits with code 0. -/
theorem short_send_returns_success :
    (handleTraffic [datagram 1 1] [⟨.OS_SUCCESS, 4⟩]).status = .returned .OS_SUCCESS
      ∧ run ⟨[.RUNNING], .OS_SUCCESS, .OS_SUCCESS, [datagram 1 1], [⟨.OS_SUCCESS, 4⟩]⟩
        = some 0 := by
  constructor <;> decide


/-- Adding one receive result to a list adds its length to the data bytes
exactly when it is a data datagram. -/
theorem dataBytes_append_singleton (window : List RecvResult) (r : RecvResult) :
    dataBytes (window ++ [r]) =
      dataBytes window + if isCommand 0 r then r.actualLen else 0 := by
  unfold dataBytes
  by_cases h : isCommand 0 r
  · have hp : (fun r => decide (isCommand 0 r)) r = true := decide_eq_true h
    rw [if_pos h, List.filter_append, List.map_append, List.sum_append,
      @List.filter_cons_of_pos _ (fun r => decide (isCommand 0 r)) r [] hp]
    simp
  · have hp : ¬ (fun r => decide (isCommand 0 r)) r = true := by simpa using h
    rw [if_neg h, List.filter_append, List.map_append, List.sum_append,
      @List.filter_cons_of_neg _ (fun r => decide (isCommand 0 r)) r [] hp]
    simp

/-- The counter of the receive loop follows the window since the last reset:
started with the data bytes of `window` modulo 2^64, it ends with the data
bytes, modulo 2^64, of the window extended over the results read. -/
theorem handleTrafficLoop_counter (recvs : List RecvResult) :
    ∀ (sends : List SendResult) (C : Nat) (window : List RecvResult),
      C = dataBytes window % 2 ^ 64 →
      (handleTrafficLoop C recvs sends).totalReceived =
        dataBytes
          ((recvs.take (handleTrafficLoop C recvs sends).processed).foldl
            (fun window r => if isCommand 2 r then [] else window ++ [r]) window)
          % 2 ^ 64 := by
  induction recvs with
  | nil => intro sends C window hC; simp [handleTrafficLoop, hC]
  | cons r later ih =>
    intro sends C window hC
    have hb : (handleTrafficBody C r sends).totalReceived =
        dataBytes (if isCommand 2 r then [] else window ++ [r]) % 2 ^ 64 := by
      rw [handleTrafficBody_totalReceived]
      by_cases h2 : isCommand 2 r
      · have h0 : ¬ isCommand 0 r := fun h => by
          have := h2.2.2.symm.trans h.2.2
          omega
        rw [if_neg h0, if_pos h2, if_pos h2]
        simp [dataBytes]
      · rw [if_neg h2, if_neg h2, dataBytes_append_singleton]
        by_cases h0 : isCommand 0 r
        · rw [if_pos h0, if_pos h0, hC]
          omega
        · rw [if_neg h0, if_neg h0, hC]
          simp
    have ih := ih (handleTrafficBody C r sends).sends _ _ hb
    unfold handleTrafficLoop
    simp only []
    split
    · simpa using hb
    · simpa using hb
    · split
      · simpa [Nat.add_comm 1] using ih
      · simpa using hb

/-- The receive loop is inside `OS_Socket_recvfrom` only after it has read
every receive result. -/
theorem handleTrafficLoop_processed (recvs : List RecvResult) :
    ∀ (sends : List SendResult) (C : Nat),
      (handleTrafficLoop C recvs sends).status = .inRecvfrom →
      (handleTrafficLoop C recvs sends).processed = recvs.length := by
  induction recvs with
  | nil => intro sends C _; simp [handleTrafficLoop]
  | cons r later ih =>
    intro sends C
    have ih := ih (handleTrafficBody C r sends).sends (handleTrafficBody C r sends).totalReceived
    unfold handleTrafficLoop
    simp only []
    split
    · simp
    · simp
    · split
      · intro h
        simp only [List.length_cons]
        rw [ih h]
        omega
      · simp

/-- With no reset among the receive results, all of them lie after the last
reset. -/
theorem sinceLastReset_of_no_reset (recvs : List RecvResult)
    (h : ∀ r ∈ recvs, ¬ isCommand 2 r) : sinceLastReset recvs = recvs := by
  have key : ∀ (l window : List RecvResult), (∀ r ∈ l, ¬ isCommand 2 r) →
      l.foldl (fun window r => if isCommand 2 r then [] else window ++ [r]) window
        = window ++ l := by
    intro l
    induction l with
    | nil => intro window _; simp
    | cons r later ih =>
      intro window hl
      rw [List.foldl_cons, if_neg (hl r (List.mem_cons_self _ _)),
        ih _ (fun x hx => hl x (List.mem_cons_of_mem _ hx))]
      simp
  simpa [sinceLastReset] using key recvs [] h

/-- What follows a reset that is the last one is the window since the last
reset. -/
theorem sinceLastReset_after_reset (before after : List RecvResult) (r : RecvResult)
    (hr : isCommand 2 r) (h : ∀ x ∈ after, ¬ isCommand 2 x) :
    sinceLastReset (before ++ r :: after) = after := by
  unfold sinceLastReset
  rw [List.foldl_append, List.foldl_cons, if_pos hr]
  exact sinceLastReset_of_no_reset after h


/-- A data datagram ends the pass at the loop test with OS_SUCCESS. -/
theorem handleTrafficBody_fin_data (C : Nat) (r : RecvResult) (sends : List SendResult)
    (h : isCommand 0 r) :
    (handleTrafficBody C r sends).fin = .loopTest .OS_SUCCESS := by
  obtain ⟨h1, h2, h3⟩ := h
  have h4 : r.actualLen ≠ 0 := by omega
  unfold handleTrafficBody
  rw [if_pos h1, if_neg h4]
  simp only [h3]
  simp [h1]

/-- A run of `n` equal data datagrams is read to the end. -/
theorem handleTrafficLoop_replicate_status (d : RecvResult) (hd : isCommand 0 d) (n : Nat) :
    ∀ (C : Nat) (sends : List SendResult),
      (handleTrafficLoop C (List.replicate n d) sends).status = .inRecvfrom := by
  induction n with
  | zero => intro C sends; simp [handleTrafficLoop]
  | succ n ih =>
    intro C sends
    rw [List.replicate_succ]
    unfold handleTrafficLoop
    simp only [handleTrafficBody_fin_data C d sends hd]
    simpa using ih _ _

/-- The data bytes of `n` equal data datagrams. -/
theorem dataBytes_replicate (d : RecvResult) (hd : isCommand 0 d) (n : Nat) :
    dataBytes (sinceLastReset (List.replicate n d)) = n * d.actualLen := by
  have h2 : ∀ r ∈ List.replicate n d, ¬ isCommand 2 r := by
    intro r hr h
    rw [List.eq_of_mem_replicate hr] at h
    have := hd.2.2.symm.trans h.2.2
    omega
  have hp : (fun r => decide (isCommand 0 r)) d = true := decide_eq_true hd
  rw [sinceLastReset_of_no_reset _ h2]
  unfold dataBytes
  rw [List.filter_replicate, if_pos hp, List.map_replicate, List.sum_replicate, smul_eq_mul]

/-- When `handleTraffic` waits for the next datagram it has read every
receive result, and its counter is the data bytes since the last reset,
modulo 2^64. -/
theorem handleTraffic_counter_read_all (recvs : List RecvResult) (sends : List SendResult)
    (hs : (handleTraffic recvs sends).status = .inRecvfrom) :
    (handleTraffic recvs sends).processed = recvs.length ∧
      (handleTraffic recvs sends).totalReceived = dataBytes (sinceLastReset recvs) % 2 ^ 64 := by
  have h := handleTrafficLoop_counter recvs sends 0 [] (by simp [dataBytes])
  have hp := handleTrafficLoop_processed recvs sends 0 hs
  refine ⟨hp, ?_⟩
  rw [hp, List.take_length] at h
  exact h

/-- A run of `n` equal data datagrams: all are read, the counter is `n` times
the length modulo 2^64, and the data bytes are `n` times the length. -/
theorem handleTraffic_replicate_data (d : RecvResult) (hd : isCommand 0 d) (n : Nat)
    (sends : List SendResult) :
    (handleTraffic (List.replicate n d) sends).processed = n
      ∧ (handleTraffic (List.replicate n d) sends).totalReceived = n * d.actualLen % 2 ^ 64
      ∧ dataBytes (sinceLastReset (List.replicate n d)) = n * d.actualLen := by
  have hs := handleTrafficLoop_replicate_status d hd n 0 sends
  have h := handleTraffic_counter_read_all (List.replicate n d) sends hs
  have hb := dataBytes_replicate d hd n
  rw [List.length_replicate] at h
  rw [hb] at h
  exact ⟨h.1, h.2, hb⟩

/-- C1 (amended): starting from counter 0, for every sequence of receive
results and every sequence of `sendto` results, the 64-bit counter of
`handleTraffic` equals, modulo 2^64, the sum of the full datagram lengths
(command byte included) of the data datagrams (first byte 0) received since
the last reset command (first byte 2), or since the start when there was no
reset, among the receive results read; all of them are read when
`handleTraffic` ends up waiting for the next datagram; and the counter is the
sum itself as long as the sum is below 2^64. -/
theorem counter_is_data_bytes_mod (recvs : List RecvResult) (sends : List SendResult) :
    (handleTraffic recvs sends).totalReceived =
        dataBytes (sinceLastReset (recvs.take (handleTraffic recvs sends).processed))
          % 2 ^ 64
      ∧ ((handleTraffic recvs sends).status = .inRecvfrom →
        (handleTraffic recvs sends).processed = recvs.length ∧
        (handleTraffic recvs sends).totalReceived = dataBytes (sinceLastReset recvs) % 2 ^ 64)
      ∧ (dataBytes (sinceLastReset (recvs.take (handleTraffic recvs sends).processed)) < 2 ^ 64 →
        (handleTraffic recvs sends).totalReceived =
          dataBytes (sinceLastReset (recvs.take (handleTraffic recvs sends).processed))) := by
  have h := handleTrafficLoop_counter recvs sends 0 [] (by simp [dataBytes])
  exact ⟨h, fun hs => handleTraffic_counter_read_all recvs sends hs,
    fun hlt => h.trans (Nat.mod_eq_of_lt hlt)⟩

/-- C1 (amended) at a concrete input: 100 and 50 data bytes, a reset, 7 data
bytes and a query. -/
theorem counter_is_data_bytes_mod_witness :
    (handleTraffic
        [datagram 0 100, datagram 0 50, datagram 2 1, datagram 0 7, datagram 1 1]
        [⟨.OS_SUCCESS, 8⟩, ⟨.OS_SUCCESS, 8⟩]).status = .inRecvfrom
      ∧ (handleTraffic
          [datagram 0 100, datagram 0 50, datagram 2 1, datagram 0 7, datagram 1 1]
          [⟨.OS_SUCCESS, 8⟩, ⟨.OS_SUCCESS, 8⟩]).processed = 5
      ∧ (handleTraffic
          [datagram 0 100, datagram 0 50, datagram 2 1, datagram 0 7, datagram 1 1]
          [⟨.OS_SUCCESS, 8⟩, ⟨.OS_SUCCESS, 8⟩]).totalReceived
        = dataBytes (sinceLastReset
          [datagram 0 100, datagram 0 50, datagram 2 1, datagram 0 7, datagram 1 1]) % 2 ^ 64
      ∧ dataBytes (sinceLastReset
          [datagram 0 100, datagram 0 50, datagram 2 1, datagram 0 7, datagram 1 1]) = 7 :=
  ⟨by decide,
    ((counter_is_data_bytes_mod
      [datagram 0 100, datagram 0 50, datagram 2 1, datagram 0 7, datagram 1 1]
      [⟨.OS_SUCCESS, 8⟩, ⟨.OS_SUCCESS, 8⟩]).2.1 (by decide)).1,
    ((counter_is_data_bytes_mod
      [datagram 0 100, datagram 0 50, datagram 2 1, datagram 0 7, datagram 1 1]
      [⟨.OS_SUCCESS, 8⟩, ⟨.OS_SUCCESS, 8⟩]).2.1 (by decide)).2,
    by decide⟩

/-- Counterexample to C1 as stated: after 2^52 data datagrams of 4096 bytes
each, all of them read and no reset among them, the counter is 0, while the
sum of their lengths is 2^64. -/
theorem counter_wraps_at_two_pow_64 :
    (handleTraffic (List.replicate (2 ^ 52) (datagram 0 4096)) []).processed
        = (List.replicate (2 ^ 52) (datagram 0 4096)).length
      ∧ (handleTraffic (List.replicate (2 ^ 52) (datagram 0 4096)) []).totalReceived = 0
      ∧ dataBytes (sinceLastReset (List.replicate (2 ^ 52) (datagram 0 4096))) = 2 ^ 64
      ∧ (handleTraffic (List.replicate (2 ^ 52) (datagram 0 4096)) []).totalReceived
        ≠ dataBytes (sinceLastReset (List.replicate (2 ^ 52) (datagram 0 4096))) := by
  have hd : isCommand 0 (datagram 0 4096) := ⟨rfl, by decide, rfl⟩
  obtain ⟨hp, hc, hb⟩ := handleTraffic_replicate_data (datagram 0 4096) hd (2 ^ 52) []
  have hlen : (datagram 0 4096).actualLen = 4096 := rfl
  have e1 : 2 ^ 52 * 4096 % 2 ^ 64 = 0 := by norm_num
  have e2 : 2 ^ 52 * 4096 = 2 ^ 64 := by norm_num
  rw [hlen, e1] at hc
  rw [hlen, e2] at hb
  refine ⟨?_, hc, hb, ?_⟩
  · rw [hp, List.length_replicate]
  · rw [hc, hb]
    norm_num

end BenchUdpThroughput

/-! ## TCP accept and send loop -/

namespace BenchTcpThroughput

/-- One wake of `waitForIncomingConnection` in which `OS_Socket_wait`
succeeded: the function returns what the events decode to, or goes on with
the later responses. -/
theorem waitForIncomingConnection_cons (fl : EventFlags) (srvHandleId : Int)
    (p : PendingEvents) (waits : List OS_Error_t) (events : List PendingEvents) :
    waitForIncomingConnection fl srvHandleId (.OS_SUCCESS :: waits) (p :: events) =
      match decodeEvents fl srvHandleId p with
      | .done ret =>
        ⟨some ret, [.wait (some .OS_SUCCESS), .getPendingEvents (some p)], waits, events⟩
      | .again =>
        ⟨(waitForIncomingConnection fl srvHandleId waits events).ret,
          .wait (some .OS_SUCCESS) :: .getPendingEvents (some p) ::
            (waitForIncomingConnection fl srvHandleId waits events).trace,
          (waitForIncomingConnection fl srvHandleId waits events).waits,
          (waitForIncomingConnection fl srvHandleId waits events).events⟩ := by
  rw [waitForIncomingConnection]
  simp

/-- C9: for every wake of `waitForIncomingConnection` in which
`OS_Socket_wait` and `OS_Socket_getPendingEvents` succeed: with an event
count of 0 the function goes on with the next wake; a count other than 0 or 1
returns OS_ERROR_INVALID_STATE; with count 1, an event for a handle other
than the listening handle returns OS_ERROR_INVALID_HANDLE, and otherwise the
first flag found in the mask, tested in the order FIN, connection-accepted,
CLOSE, ERROR, decides: OS_ERROR_NETWORK_CONN_REFUSED, OS_SUCCESS,
OS_ERROR_CONNECTION_CLOSED, the carried error code; with none of these flags
the function goes on with the next wake. -/
theorem waitForIncomingConnection_wake (fl : EventFlags) (srvHandleId : Int)
    (p : PendingEvents) (waits : List OS_Error_t) (events : List PendingEvents)
    (hp : p.ret = .OS_SUCCESS) :
    (p.numberOfSocketsWithEvents = 0 →
        waitForIncomingConnection fl srvHandleId (.OS_SUCCESS :: waits) (p :: events) =
          ⟨(waitForIncomingConnection fl srvHandleId waits events).ret,
            .wait (some .OS_SUCCESS) :: .getPendingEvents (some p) ::
              (waitForIncomingConnection fl srvHandleId waits events).trace,
            (waitForIncomingConnection fl srvHandleId waits events).waits,
            (waitForIncomingConnection fl srvHandleId waits events).events⟩)
      ∧ (p.numberOfSocketsWithEvents ≠ 0 → p.numberOfSocketsWithEvents ≠ 1 →
        (waitForIncomingConnection fl srvHandleId (.OS_SUCCESS :: waits) (p :: events)).ret
          = some .OS_ERROR_INVALID_STATE)
      ∧ (p.numberOfSocketsWithEvents = 1 → p.event.socketHandle ≠ srvHandleId →
        (waitForIncomingConnection fl srvHandleId (.OS_SUCCESS :: waits) (p :: events)).ret
          = some .OS_ERROR_INVALID_HANDLE)
      ∧ (p.numberOfSocketsWithEvents = 1 → p.event.socketHandle = srvHandleId →
        (p.event.eventMask &&& fl.OS_SOCK_EV_FIN ≠ 0 →
          (waitForIncomingConnection fl srvHandleId (.OS_SUCCESS :: waits) (p :: events)).ret
            = some .OS_ERROR_NETWORK_CONN_REFUSED)
        ∧ (p.event.eventMask &&& fl.OS_SOCK_EV_FIN = 0 →
          p.event.eventMask &&& fl.OS_SOCK_EV_CONN_ACPT ≠ 0 →
          (waitForIncomingConnection fl srvHandleId (.OS_SUCCESS :: waits) (p :: events)).ret
            = some .OS_SUCCESS)
        ∧ (p.event.eventMask &&& fl.OS_SOCK_EV_FIN = 0 →
          p.event.eventMask &&& fl.OS_SOCK_EV_CONN_ACPT = 0 →
          p.event.eventMask &&& fl.OS_SOCK_EV_CLOSE ≠ 0 →
          (waitForIncomingConnection fl srvHandleId (.OS_SUCCESS :: waits) (p :: events)).ret
            = some .OS_ERROR_CONNECTION_CLOSED)
        ∧ (p.event.eventMask &&& fl.OS_SOCK_EV_FIN = 0 →
          p.event.eventMask &&& fl.OS_SOCK_EV_CONN_ACPT = 0 →
          p.event.eventMask &&& fl.OS_SOCK_EV_CLOSE = 0 →
          p.event.eventMask &&& fl.OS_SOCK_EV_ERROR ≠ 0 →
          (waitForIncomingConnection fl srvHandleId (.OS_SUCCESS :: waits) (p :: events)).ret
            = some p.event.currentError)
        ∧ (p.event.eventMask &&& fl.OS_SOCK_EV_FIN = 0 →
          p.event.eventMask &&& fl.OS_SOCK_EV_CONN_ACPT = 0 →
          p.event.eventMask &&& fl.OS_SOCK_EV_CLOSE = 0 →
          p.event.eventMask &&& fl.OS_SOCK_EV_ERROR = 0 →
          waitForIncomingConnection fl srvHandleId (.OS_SUCCESS :: waits) (p :: events) =
            ⟨(waitForIncomingConnection fl srvHandleId waits events).ret,
              .wait (some .OS_SUCCESS) :: .getPendingEvents (some p) ::
                (waitForIncomingConnection fl srvHandleId waits events).trace,
              (waitForIncomingConnection fl srvHandleId waits events).waits,
              (waitForIncomingConnection fl srvHandleId waits events).events⟩)) := by
  rw [waitForIncomingConnection_cons]
  refine ⟨?_, ?_, ?_, ?_⟩
  · intro h0
    simp [decodeEvents, hp, h0]
  · intro h0 h1
    simp [decodeEvents, hp, h0, h1]
  · intro h1 hh
    simp [decodeEvents, hp, h1, hh]
  · intro h1 hh
    refine ⟨?_, ?_, ?_, ?_, ?_⟩
    · intro a
      simp [decodeEvents, hp, h1, hh, a]
    · intro a b
      simp [decodeEvents, hp, h1, hh, a, b]
    · intro a b c
      simp [decodeEvents, hp, h1, hh, a, b, c]
    · intro a b c d
      simp [decodeEvents, hp, h1, hh, a, b, c, d]
    · intro a b c d
      simp [decodeEvents, hp, h1, hh, a, b, c, d]


/-- C9 at concrete inputs, one for every case: the listening handle is 3 and
the flags are `sampleFlags`. -/
theorem waitForIncomingConnection_wake_witness :
    waitForIncomingConnection sampleFlags 3 [.OS_SUCCESS]
        [⟨.OS_SUCCESS, 0, ⟨3, -1, 0, .OS_SUCCESS⟩⟩] =
        ⟨none, [.wait (some .OS_SUCCESS),
          .getPendingEvents (some ⟨.OS_SUCCESS, 0, ⟨3, -1, 0, .OS_SUCCESS⟩⟩), .wait none],
          [], []⟩
      ∧ (waitForIncomingConnection sampleFlags 3 [.OS_SUCCESS]
          [⟨.OS_SUCCESS, 2, ⟨3, -1, 2, .OS_SUCCESS⟩⟩]).ret = some .OS_ERROR_INVALID_STATE
      ∧ (waitForIncomingConnection sampleFlags 3 [.OS_SUCCESS] [oneEvent 4 2 .OS_SUCCESS]).ret
        = some .OS_ERROR_INVALID_HANDLE
      ∧ (waitForIncomingConnection sampleFlags 3 [.OS_SUCCESS] [oneEvent 3 18 .OS_SUCCESS]).ret
        = some .OS_ERROR_NETWORK_CONN_REFUSED
      ∧ (waitForIncomingConnection sampleFlags 3 [.OS_SUCCESS] [oneEvent 3 34 .OS_SUCCESS]).ret
        = some .OS_SUCCESS
      ∧ (waitForIncomingConnection sampleFlags 3 [.OS_SUCCESS] [oneEvent 3 96 .OS_SUCCESS]).ret
        = some .OS_ERROR_CONNECTION_CLOSED
      ∧ (waitForIncomingConnection sampleFlags 3 [.OS_SUCCESS] [oneEvent 3 64 (.other (-7))]).ret
        = some (.other (-7))
      ∧ waitForIncomingConnection sampleFlags 3 [.OS_SUCCESS] [oneEvent 3 1 .OS_SUCCESS] =
        ⟨none, [.wait (some .OS_SUCCESS),
          .getPendingEvents (some (oneEvent 3 1 .OS_SUCCESS)), .wait none], [], []⟩ :=
  ⟨(waitForIncomingConnection_wake sampleFlags 3 ⟨.OS_SUCCESS, 0, ⟨3, -1, 0, .OS_SUCCESS⟩⟩
      [] [] rfl).1 rfl,
    (waitForIncomingConnection_wake sampleFlags 3 ⟨.OS_SUCCESS, 2, ⟨3, -1, 2, .OS_SUCCESS⟩⟩
      [] [] rfl).2.1 (by decide) (by decide),
    (waitForIncomingConnection_wake sampleFlags 3 (oneEvent 4 2 .OS_SUCCESS)
      [] [] rfl).2.2.1 rfl (by decide),
    ((waitForIncomingConnection_wake sampleFlags 3 (oneEvent 3 18 .OS_SUCCESS)
      [] [] rfl).2.2.2 rfl rfl).1 (by decide),
    ((waitForIncomingConnection_wake sampleFlags 3 (oneEvent 3 34 .OS_SUCCESS)
      [] [] rfl).2.2.2 rfl rfl).2.1 (by decide) (by decide),
    ((waitForIncomingConnection_wake sampleFlags 3 (oneEvent 3 96 .OS_SUCCESS)
      [] [] rfl).2.2.2 rfl rfl).2.2.1 (by decide) (by decide) (by decide),
    ((waitForIncomingConnection_wake sampleFlags 3 (oneEvent 3 64 (.other (-7)))
      [] [] rfl).2.2.2 rfl rfl).2.2.2.1 (by decide) (by decide) (by decide) (by decide),
    ((waitForIncomingConnection_wake sampleFlags 3 (oneEvent 3 1 .OS_SUCCESS)
      [] [] rfl).2.2.2 rfl rfl).2.2.2.2 (by decide) (by decide) (by decide) (by decide)⟩

/-- The events that make `decodeEvents` end the wait with OS_SUCCESS. -/
theorem decodeEvents_success (fl : EventFlags) (srvHandleId : Int) (p : PendingEvents)
    (h : decodeEvents fl srvHandleId p = .done .OS_SUCCESS) :
    acceptReady fl srvHandleId p := by
  unfold decodeEvents at h
  unfold acceptReady
  by_cases h1 : p.ret = .OS_SUCCESS
  swap
  · simp [h1] at h
  by_cases h2 : p.numberOfSocketsWithEvents = 0
  · simp [h1, h2] at h
  by_cases h3 : p.numberOfSocketsWithEvents = 1
  swap
  · simp [h1, h2, h3] at h
  by_cases h4 : p.event.socketHandle = srvHandleId
  swap
  · simp [h1, h2, h3, h4] at h
  by_cases h5 : p.event.eventMask &&& fl.OS_SOCK_EV_FIN = 0
  swap
  · simp [h1, h2, h3, h4, h5] at h
  by_cases h6 : p.event.eventMask &&& fl.OS_SOCK_EV_CONN_ACPT = 0
  swap
  · exact ⟨h1, h3, h4, h5, Or.inl h6⟩
  by_cases h7 : p.event.eventMask &&& fl.OS_SOCK_EV_CLOSE = 0
  swap
  · simp [h1, h2, h3, h4, h5, h6, h7] at h
  by_cases h8 : p.event.eventMask &&& fl.OS_SOCK_EV_ERROR = 0
  · simp [h1, h2, h3, h4, h5, h6, h7, h8] at h
  simp [h1, h2, h3, h4, h5, h6, h7, h8] at h
  exact ⟨h1, h3, h4, h5, Or.inr ⟨h7, h8, h⟩⟩

/-- The trace of `waitForIncomingConnection` starts with a call of
`OS_Socket_wait`, holds only `wait` and `getPendingEvents` calls, and ends,
when the function returns OS_SUCCESS, with the events that made it do so. -/
theorem waitForIncomingConnection_trace (fl : EventFlags) (srvHandleId : Int)
    (waits : List OS_Error_t) :
    ∀ events : List PendingEvents,
      (∃ r later, (waitForIncomingConnection fl srvHandleId waits events).trace
          = .wait r :: later)
      ∧ (∀ c ∈ (waitForIncomingConnection fl srvHandleId waits events).trace,
          (∃ r, c = .wait r) ∨ ∃ p, c = .getPendingEvents p)
      ∧ ((waitForIncomingConnection fl srvHandleId waits events).ret = some .OS_SUCCESS →
        ∃ p, (waitForIncomingConnection fl srvHandleId waits events).trace.getLast?
            = some (.getPendingEvents (some p)) ∧ acceptReady fl srvHandleId p)
      ∧ ((waitForIncomingConnection fl srvHandleId waits events).ret ≠ none →
        (waitForIncomingConnection fl srvHandleId waits events).waits.length < waits.length) := by
  induction waits with
  | nil => intro events; simp [waitForIncomingConnection]
  | cons ret waits ih =>
    intro events
    by_cases hret : ret = .OS_SUCCESS
    · subst hret
      cases events with
      | nil => simp [waitForIncomingConnection]
      | cons p events =>
        rw [waitForIncomingConnection_cons]
        cases hd : decodeEvents fl srvHandleId p with
        | done ret' =>
          simp only []
          refine ⟨⟨_, _, rfl⟩, ?_, ?_, ?_⟩
          · intro c hc
            simp only [List.mem_cons, List.mem_singleton, List.not_mem_nil, or_false] at hc
            rcases hc with rfl | rfl
            · exact Or.inl ⟨_, rfl⟩
            · exact Or.inr ⟨_, rfl⟩
          · intro h
            have h' : ret' = .OS_SUCCESS := Option.some.inj h
            subst h'
            exact ⟨p, rfl, decodeEvents_success fl srvHandleId p hd⟩
          · intro _
            simp
        | again =>
          simp only []
          obtain ⟨⟨r, later, h1⟩, h2, h3, h4⟩ := ih events
          refine ⟨⟨_, _, rfl⟩, ?_, ?_, ?_⟩
          · intro c hc
            simp only [List.mem_cons] at hc
            rcases hc with rfl | rfl | hc
            · exact Or.inl ⟨_, rfl⟩
            · exact Or.inr ⟨_, rfl⟩
            · exact h2 c hc
          · intro h
            obtain ⟨q, hq, hr⟩ := h3 h
            refine ⟨q, ?_, hr⟩
            rw [h1] at hq ⊢
            simpa [List.getLast?_cons_cons] using hq
          · intro h
            have := h4 h
            simp only [List.length_cons]
            omega
    · simp [waitForIncomingConnection, hret]


/-- A relation that holds whatever stands on the left is a chain on every
list of elements it holds for on the right. -/
theorem chain_of_forall_right {α : Type} (R : α → α → Prop) (l : List α)
    (h : ∀ y ∈ l, ∀ x, R x y) : List.Chain' R l := by
  induction l with
  | nil => exact List.chain'_nil
  | cons a l ih =>
    cases l with
    | nil => exact List.chain'_singleton a
    | cons b l =>
      rw [List.chain'_cons]
      exact ⟨h b (by simp) a, ih (fun y hy => h y (List.mem_cons_of_mem _ hy))⟩

/-- A relation that holds whatever stands on the right is a chain on every
list of elements it holds for on the left. -/
theorem chain_of_forall_left {α : Type} (R : α → α → Prop) (l : List α)
    (h : ∀ x ∈ l, ∀ y, R x y) : List.Chain' R l := by
  induction l with
  | nil => exact List.chain'_nil
  | cons a l ih =>
    cases l with
    | nil => exact List.chain'_singleton a
    | cons b l =>
      rw [List.chain'_cons]
      exact ⟨h a (by simp) b, ih (fun y hy => h y (List.mem_cons_of_mem _ hy))⟩

/-- In a chain, two neighbours are related. -/
theorem chain_neighbours {α : Type} (R : α → α → Prop) (before after : List α) (x y : α)
    (h : List.Chain' R (before ++ x :: y :: after)) : R x y := by
  rw [List.chain'_append] at h
  exact (List.chain'_cons.mp h.2.1).1

/-- A trace of `wait` and `getPendingEvents` calls that ends with the events
of an incoming connection can be followed by `OS_Socket_accept`. -/
theorem chain_ready_accept (fl : EventFlags) (srvHandleId : Int) (W T : List Call)
    (hW : ∀ c ∈ W, (∃ r, c = .wait r) ∨ ∃ p, c = .getPendingEvents p)
    (hl : ∃ p, W.getLast? = some (.getPendingEvents (some p)) ∧ acceptReady fl srvHandleId p)
    (hT : List.Chain' (acceptAfterReady fl srvHandleId) T)
    (hh : T.head? ≠ some .accept) :
    List.Chain' (acceptAfterReady fl srvHandleId) (W ++ .accept :: T) := by
  rw [List.chain'_append]
  refine ⟨chain_of_forall_right _ _ ?_, ?_, ?_⟩
  · intro y hy x hacc
    rcases hW y hy with ⟨r, hr⟩ | ⟨p, hp⟩
    · rw [hr] at hacc; cases hacc
    · rw [hp] at hacc; cases hacc
  · cases T with
    | nil => exact List.chain'_singleton _
    | cons t T =>
      rw [List.chain'_cons]
      refine ⟨fun ht => ?_, hT⟩
      exact absurd (by rw [ht]; rfl) hh
  · intro x hx y hy _
    obtain ⟨p, hp, hr⟩ := hl
    rw [Option.mem_def] at hx
    rw [hp] at hx
    exact ⟨p, (Option.some.inj hx).symm, hr⟩


/-- The trace of the accept loop of `run`: it starts with a call of
`OS_Socket_wait`, holds only `wait`, `getPendingEvents` and `accept` calls and
closes of a `hSocket` without an accepted connection, calls `OS_Socket_accept` only
right after the events of an incoming connection, has read a result of
`OS_Socket_wait` when a connection was accepted, and ends with the close of
`hSocket` when `run` returns. -/
theorem acceptConnection_trace (fl : EventFlags) (srvHandleId : Int)
    (accepts : List AcceptResult) :
    ∀ (waits : List OS_Error_t) (events : List PendingEvents),
      (∃ r later, (acceptConnection fl srvHandleId accepts waits events).trace
          = .wait r :: later)
      ∧ (∀ c ∈ (acceptConnection fl srvHandleId accepts waits events).trace,
          (∃ r, c = .wait r) ∨ (∃ p, c = .getPendingEvents p) ∨ c = .accept
            ∨ c = .close none)
      ∧ List.Chain' (acceptAfterReady fl srvHandleId)
          (acceptConnection fl srvHandleId accepts waits events).trace
      ∧ (∀ h, (acceptConnection fl srvHandleId accepts waits events).fin = .accepted h →
          (acceptConnection fl srvHandleId accepts waits events).waits.length < waits.length)
      ∧ ((acceptConnection fl srvHandleId accepts waits events).fin = .exit →
          (acceptConnection fl srvHandleId accepts waits events).trace.getLast?
            = some (.close none)) := by
  have noAccept : ∀ (W : List Call),
      (∀ c ∈ W, (∃ r, c = Call.wait r) ∨ ∃ p, c = Call.getPendingEvents p) →
      ∀ y ∈ W ++ [Call.close none], ∀ x, acceptAfterReady fl srvHandleId x y := by
    intro W hW y hy x hacc
    rcases List.mem_append.mp hy with hy | hy
    · rcases hW y hy with ⟨r, hr⟩ | ⟨p, hp⟩
      · rw [hr] at hacc; cases hacc
      · rw [hp] at hacc; cases hacc
    · rw [List.mem_singleton.mp hy] at hacc; cases hacc
  have noAccept' : ∀ (W : List Call),
      (∀ c ∈ W, (∃ r, c = Call.wait r) ∨ ∃ p, c = Call.getPendingEvents p) →
      ∀ y ∈ W, ∀ x, acceptAfterReady fl srvHandleId x y := by
    intro W hW y hy x hacc
    rcases hW y hy with ⟨r, hr⟩ | ⟨p, hp⟩
    · rw [hr] at hacc; cases hacc
    · rw [hp] at hacc; cases hacc
  have noClose : ∀ (W : List Call),
      (∀ c ∈ W, (∃ r, c = Call.wait r) ∨ ∃ p, c = Call.getPendingEvents p) →
      ∀ c ∈ W, (∃ r, c = Call.wait r) ∨ (∃ p, c = Call.getPendingEvents p)
        ∨ c = Call.accept ∨ c = Call.close none := by
    intro W hW c hc
    rcases hW c hc with h | h
    · exact Or.inl h
    · exact Or.inr (Or.inl h)
  induction accepts with
  | nil =>
    intro waits events
    obtain ⟨⟨r, later, h1⟩, h2, h3, h4⟩ :=
      waitForIncomingConnection_trace fl srvHandleId waits events
    cases hw : (waitForIncomingConnection fl srvHandleId waits events).ret with
    | none =>
      simp only [acceptConnection, hw, ne_eq, not_true_eq_false,
            not_false_eq_true, if_true, if_false, ite_not]
      exact ⟨⟨r, later, h1⟩, noClose _ h2, chain_of_forall_right _ _ (noAccept' _ h2),
        (fun h hh => by cases hh), (fun hh => by cases hh)⟩
    | some ret =>
      by_cases hret : ret = .OS_SUCCESS
      · subst hret
        simp only [acceptConnection, hw, ne_eq, not_true_eq_false,
            not_false_eq_true, if_true, if_false, ite_not]
        refine ⟨⟨r, later ++ [.accept], by rw [h1]; rfl⟩, ?_, ?_, (fun h hh => by simp at hh),
          (fun hh => by simp at hh)⟩
        · intro c hc
          rcases List.mem_append.mp hc with hc | hc
          · exact noClose _ h2 c hc
          · rw [List.mem_singleton.mp hc]; simp
        · simpa using chain_ready_accept fl srvHandleId _ [] h2 (h3 hw) List.chain'_nil
            (by simp)
      · simp only [acceptConnection, hw, hret, ne_eq, not_true_eq_false,
            not_false_eq_true, if_true, if_false, ite_not]
        refine ⟨⟨r, later ++ [.close none], by rw [h1]; simp⟩, ?_, ?_,
          (fun h hh => by simp at hh), (fun _ => by simp)⟩
        · intro c hc
          rcases List.mem_append.mp hc with hc | hc
          · exact noClose _ h2 c hc
          · rw [List.mem_singleton.mp hc]; simp
        · simpa using chain_of_forall_right _ _ (noAccept _ h2)
  | cons a accepts ih =>
    intro waits events
    obtain ⟨⟨r, later, h1⟩, h2, h3, h4⟩ :=
      waitForIncomingConnection_trace fl srvHandleId waits events
    cases hw : (waitForIncomingConnection fl srvHandleId waits events).ret with
    | none =>
      simp only [acceptConnection, hw, ne_eq, not_true_eq_false,
            not_false_eq_true, if_true, if_false, ite_not]
      exact ⟨⟨r, later, h1⟩, noClose _ h2, chain_of_forall_right _ _ (noAccept' _ h2),
        (fun h hh => by cases hh), (fun hh => by cases hh)⟩
    | some ret =>
      have hlt := h4 (by rw [hw]; simp)
      by_cases hret : ret = .OS_SUCCESS
      · subst hret
        by_cases ha : a.ret = .OS_ERROR_TRY_AGAIN
        · obtain ⟨⟨r', later', i1⟩, i2, i3, i4, i5⟩ := ih
            (waitForIncomingConnection fl srvHandleId waits events).waits
            (waitForIncomingConnection fl srvHandleId waits events).events
          simp only [acceptConnection, hw, ha, ne_eq, not_true_eq_false,
            not_false_eq_true, if_true, if_false, ite_not]
          refine ⟨⟨r, later ++ .accept :: _, by rw [h1]; rfl⟩, ?_, ?_, ?_, ?_⟩
          · intro c hc
            rcases List.mem_append.mp hc with hc | hc
            · exact noClose _ h2 c hc
            · rcases List.mem_cons.mp hc with hc | hc
              · rw [hc]; simp
              · exact i2 c hc
          · exact chain_ready_accept fl srvHandleId _ _ h2 (h3 hw) i3
              (by rw [i1]; simp)
          · intro h hh
            exact lt_trans (i4 h hh) hlt
          · intro hh
            have i5' := i5 hh
            rw [i1] at i5' ⊢
            rw [List.getLast?_append, List.getLast?_cons_cons, i5']
            simp
        · by_cases hs : a.ret = .OS_SUCCESS
          · simp only [acceptConnection, hw, ha, hs, ne_eq, not_true_eq_false,
            not_false_eq_true, if_true, if_false, ite_not]
            refine ⟨⟨r, later ++ [.accept], by rw [h1]; rfl⟩, ?_, ?_, (fun h _ => hlt),
              (fun hh => by simp at hh)⟩
            · intro c hc
              rcases List.mem_append.mp hc with hc | hc
              · exact noClose _ h2 c hc
              · rw [List.mem_singleton.mp hc]; simp
            · exact chain_ready_accept fl srvHandleId _ [] h2 (h3 hw) List.chain'_nil
                (by simp)
          · simp only [acceptConnection, hw, ha, hs, ne_eq, not_true_eq_false,
            not_false_eq_true, if_true, if_false, ite_not]
            refine ⟨⟨r, later ++ [.accept, .close none], by rw [h1]; rfl⟩, ?_, ?_,
              (fun h hh => by simp at hh), (fun _ => by simp)⟩
            · intro c hc
              rcases List.mem_append.mp hc with hc | hc
              · exact noClose _ h2 c hc
              · simp only [List.mem_cons, List.mem_singleton, List.not_mem_nil,
                  or_false] at hc
                rcases hc with hc | hc <;> · rw [hc]; simp
            · exact chain_ready_accept fl srvHandleId _ [.close none] h2 (h3 hw)
                (List.chain'_singleton _) (by simp)
      · simp only [acceptConnection, hw, hret, ne_eq, not_true_eq_false,
            not_false_eq_true, if_true, if_false, ite_not]
        refine ⟨⟨r, later ++ [.close none], by rw [h1]; simp⟩, ?_, ?_,
          (fun h hh => by simp at hh), (fun _ => by simp)⟩
        · intro c hc
          rcases List.mem_append.mp hc with hc | hc
          · exact noClose _ h2 c hc
          · rw [List.mem_singleton.mp hc]; simp
        · simpa using chain_of_forall_right _ _ (noAccept _ h2)


/-- Two chains join to a chain when the relation holds for whatever stands
before the head of the second. -/
theorem chain_append_of_head {α : Type} (R : α → α → Prop) (l₁ l₂ : List α)
    (h₁ : List.Chain' R l₁) (h₂ : List.Chain' R l₂)
    (h : ∀ y ∈ l₂.head?, ∀ x, R x y) : List.Chain' R (l₁ ++ l₂) := by
  rw [List.chain'_append]
  exact ⟨h₁, h₂, fun x _ y hy => h y hy x⟩

/-- A list on whose elements the relation holds whatever follows can be put
in front of a chain. -/
theorem chain_append_of_left {α : Type} (R : α → α → Prop) (l₁ l₂ : List α)
    (h₁ : ∀ x ∈ l₁, ∀ y, R x y) (h₂ : List.Chain' R l₂) : List.Chain' R (l₁ ++ l₂) := by
  rw [List.chain'_append]
  exact ⟨chain_of_forall_left R l₁ h₁, h₂,
    fun x hx y _ => h₁ x (List.mem_of_mem_getLast? hx) y⟩

/-- The last element of a list that ends with a non-empty list. -/
theorem getLast?_append_cons_cons {α : Type} (l : List α) (a b : α) (m : List α) :
    (l ++ a :: b :: m).getLast? = (b :: m).getLast? := by
  rw [List.getLast?_append, List.getLast?_cons_cons]
  cases h : (b :: m).getLast? with
  | none => simp at h
  | some x => simp


/-- The trace of the outer loop of `run`: `OS_Socket_accept` is called only
right after the events of an incoming connection; when the loop ends `run`,
the exit code is -1 and the last call closed `hSocket` after a failed wait or
accept; and, with enough passes for the results of `OS_Socket_wait`, the
close of a served connection is followed by a call of `OS_Socket_wait`. -/
theorem acceptLoop_trace (fl : EventFlags) (hServer : Int) (fuel : Nat) :
    ∀ (buf : List Nat) (waits : List OS_Error_t) (events : List PendingEvents)
      (accepts : List AcceptResult) (writes : List WriteResult),
      List.Chain' (acceptAfterReady fl hServer)
          (acceptLoop fl hServer fuel buf waits events accepts writes).trace
      ∧ (acceptLoop fl hServer fuel buf waits events accepts writes).trace.head?
          ≠ some .accept
      ∧ (∀ c, (acceptLoop fl hServer fuel buf waits events accepts writes).exitCode = some c →
          c = -1 ∧
          (acceptLoop fl hServer fuel buf waits events accepts writes).trace.getLast?
            = some (.close none))
      ∧ (waits.length < fuel →
          List.Chain' waitAfterClose
            (acceptLoop fl hServer fuel buf waits events accepts writes).trace
          ∧ (∃ r later, (acceptLoop fl hServer fuel buf waits events accepts writes).trace
              = .wait r :: later)
          ∧ ∀ h, (acceptLoop fl hServer fuel buf waits events accepts writes).trace.getLast?
              ≠ some (.close (some h))) := by
  induction fuel with
  | zero =>
    intro buf waits events accepts writes
    simp [acceptLoop]
  | succ fuel ih =>
    intro buf waits events accepts writes
    obtain ⟨⟨r, later, a1⟩, a2, a3, a4, a5⟩ :=
      acceptConnection_trace fl hServer accepts waits events
    have noClose : ∀ x ∈ (acceptConnection fl hServer accepts waits events).trace,
        ∀ h, x ≠ Call.close (some h) := by
      intro x hx h hh
      rcases a2 x hx with ⟨r, e⟩ | ⟨p, e⟩ | e | e <;> · rw [e] at hh; cases hh
    have freeA : ∀ x ∈ (acceptConnection fl hServer accepts waits events).trace,
        ∀ y, waitAfterClose x y := fun x hx y ⟨h, hh⟩ => absurd hh (noClose x hx h)
    have lastA : ∀ h, (acceptConnection fl hServer accepts waits events).trace.getLast?
        ≠ some (.close (some h)) := fun h hl =>
      noClose _ (List.mem_of_getLast?_eq_some hl) h rfl
    cases hf : (acceptConnection fl hServer accepts waits events).fin with
    | exit =>
      simp only [acceptLoop, hf]
      refine ⟨a3, by rw [a1]; simp, fun c hc => ⟨?_, a5 hf⟩, fun _ => ?_⟩
      · exact (Option.some.inj hc).symm
      · exact ⟨chain_of_forall_left _ _ freeA, ⟨r, later, a1⟩, lastA⟩
    | blocked =>
      simp only [acceptLoop, hf]
      refine ⟨a3, by rw [a1]; simp, (fun c hc => by cases hc), fun _ => ?_⟩
      exact ⟨chain_of_forall_left _ _ freeA, ⟨r, later, a1⟩, lastA⟩
    | accepted hSocket =>
      have writeRight : ∀ k, ∀ y ∈ List.replicate k Call.write,
          ∀ x, acceptAfterReady fl hServer x y := by
        intro k y hy x hacc
        rw [List.eq_of_mem_replicate hy] at hacc
        cases hacc
      have chainAW : ∀ k, List.Chain' (acceptAfterReady fl hServer)
          ((acceptConnection fl hServer accepts waits events).trace
            ++ List.replicate k Call.write) := fun k =>
        chain_append_of_head _ _ _ a3 (chain_of_forall_right _ _ (writeRight k))
          (fun y hy x => writeRight k y (List.mem_of_mem_head? hy) x)
      have freeAW : ∀ k, ∀ x ∈ (acceptConnection fl hServer accepts waits events).trace
          ++ List.replicate k Call.write, ∀ y, waitAfterClose x y := by
        intro k x hx y ⟨h, hh⟩
        rcases List.mem_append.mp hx with hx | hx
        · exact absurd hh (noClose x hx h)
        · rw [List.eq_of_mem_replicate hx] at hh
          cases hh
      cases hs : (sendTraffic buf writes).ret with
      | none =>
        simp only [acceptLoop, hf, hs]
        refine ⟨chainAW _, by rw [a1]; simp, (fun c hc => by cases hc), fun _ => ?_⟩
        refine ⟨chain_of_forall_left _ _ (freeAW _), ⟨r, _, by rw [a1]; rfl⟩, ?_⟩
        intro h hl
        obtain ⟨k, hk⟩ := freeAW _ _ (List.mem_of_getLast?_eq_some hl) (Call.close none)
          ⟨h, rfl⟩
        cases hk
      | some e =>
        obtain ⟨n1, n2, n3, n4⟩ := ih (initBuffer buf)
          (acceptConnection fl hServer accepts waits events).waits
          (acceptConnection fl hServer accepts waits events).events
          (acceptConnection fl hServer accepts waits events).accepts
          (sendTraffic buf writes).rest
        simp only [acceptLoop, hf, hs]
        refine ⟨?_, by rw [a1]; simp, ?_, ?_⟩
        · refine chain_append_of_head _ _ _ (chainAW _) ?_ ?_
          · rw [List.chain'_cons']
            refine ⟨fun y hy hacc => ?_, n1⟩
            rw [Option.mem_def] at hy
            rw [hacc] at hy
            exact absurd hy n2
          · intro y hy x hacc
            rw [List.head?_cons, Option.mem_def] at hy
            rw [← Option.some.inj hy] at hacc
            cases hacc
        · intro c hc
          obtain ⟨hc1, hc2⟩ := n3 c hc
          refine ⟨hc1, ?_⟩
          obtain ⟨ys, hys⟩ := List.getLast?_eq_some_iff.mp hc2
          rw [hys, ← List.cons_append, ← List.append_assoc, List.getLast?_concat]
        · intro hlt
          have hlt' := a4 hSocket hf
          obtain ⟨m1, ⟨r', later', m2⟩, m3⟩ := n4 (by omega)
          refine ⟨?_, ⟨r, _, by rw [a1]; rfl⟩, ?_⟩
          · refine chain_append_of_left _ _ _ (freeAW _) ?_
            rw [List.chain'_cons']
            refine ⟨fun y hy _ => ?_, m1⟩
            rw [m2, List.head?_cons, Option.mem_def] at hy
            exact ⟨r', (Option.some.inj hy).symm⟩
          · intro h
            rw [m2, getLast?_append_cons_cons, ← m2]
            exact m3 h


/-- In the trace of the outer loop of `run`, a call of `OS_Socket_write` is
followed by another one or by the close of the served connection. -/
theorem acceptLoop_writes (fl : EventFlags) (hServer : Int) (fuel : Nat) :
    ∀ (buf : List Nat) (waits : List OS_Error_t) (events : List PendingEvents)
      (accepts : List AcceptResult) (writes : List WriteResult),
      List.Chain' closeAfterWrite
        (acceptLoop fl hServer fuel buf waits events accepts writes).trace := by
  induction fuel with
  | zero =>
    intro buf waits events accepts writes
    simp [acceptLoop]
  | succ fuel ih =>
    intro buf waits events accepts writes
    obtain ⟨_, a2, _, _, _⟩ := acceptConnection_trace fl hServer accepts waits events
    have freeA : ∀ x ∈ (acceptConnection fl hServer accepts waits events).trace,
        ∀ y, closeAfterWrite x y := by
      intro x hx y hh
      rcases a2 x hx with ⟨r, e⟩ | ⟨p, e⟩ | e | e <;> · rw [e] at hh; cases hh
    have chainW : ∀ k, List.Chain' closeAfterWrite (List.replicate k Call.write) := fun k =>
      chain_of_forall_right _ _ (fun y hy x _ => Or.inl (List.eq_of_mem_replicate hy))
    cases hf : (acceptConnection fl hServer accepts waits events).fin with
    | exit =>
      simp only [acceptLoop, hf]
      exact chain_of_forall_left _ _ freeA
    | blocked =>
      simp only [acceptLoop, hf]
      exact chain_of_forall_left _ _ freeA
    | accepted hSocket =>
      cases hs : (sendTraffic buf writes).ret with
      | none =>
        simp only [acceptLoop, hf, hs]
        exact chain_append_of_left _ _ _ freeA (chainW _)
      | some e =>
        simp only [acceptLoop, hf, hs]
        rw [List.append_assoc]
        refine chain_append_of_left _ _ _ freeA (chain_append_of_head _ _ _ (chainW _) ?_ ?_)
        · rw [List.chain'_cons']
          exact ⟨(fun y _ hh => by cases hh), ih _ _ _ _ _⟩
        · intro y hy x _
          rw [List.head?_cons, Option.mem_def] at hy
          exact Or.inr ⟨hSocket, (Option.some.inj hy).symm⟩

/-- More passes than there are results of `OS_Socket_wait` never change the
result of the outer loop of `run`: every pass that goes on to a further one
has read such a result. -/
theorem acceptLoop_fuel (fl : EventFlags) (hServer : Int) (fuel₁ : Nat) :
    ∀ (fuel₂ : Nat) (buf : List Nat) (waits : List OS_Error_t)
      (events : List PendingEvents) (accepts : List AcceptResult)
      (writes : List WriteResult),
      waits.length < fuel₁ → waits.length < fuel₂ →
      acceptLoop fl hServer fuel₁ buf waits events accepts writes
        = acceptLoop fl hServer fuel₂ buf waits events accepts writes := by
  induction fuel₁ with
  | zero => intro fuel₂ buf waits events accepts writes h; omega
  | succ fuel₁ ih =>
    intro fuel₂ buf waits events accepts writes h₁ h₂
    obtain ⟨k, rfl⟩ : ∃ k, fuel₂ = k + 1 := ⟨fuel₂ - 1, by omega⟩
    obtain ⟨_, _, _, a4, _⟩ := acceptConnection_trace fl hServer accepts waits events
    cases hf : (acceptConnection fl hServer accepts waits events).fin with
    | exit => simp only [acceptLoop, hf]
    | blocked => simp only [acceptLoop, hf]
    | accepted hSocket =>
      have hlt := a4 hSocket hf
      cases hs : (sendTraffic buf writes).ret with
      | none => simp only [acceptLoop, hf, hs]
      | some e =>
        simp only [acceptLoop, hf, hs]
        rw [ih k (initBuffer buf) _ _ _ _ (by omega) (by omega)]

/-- The function `run` either ends in the bootstrap, with no call of the
accept loop, or is the accept loop on the responses of the facility. -/
theorem run_cases (fl : EventFlags) (size : Nat) (f : Facility) :
    ((run fl size f).trace = [] ∧ (run fl size f).streams = [] ∧
        ((run fl size f).exitCode = none ∨ (run fl size f).exitCode = some (-1)))
      ∨ run fl size f =
        acceptLoop fl f.hServer (f.waits.length + 1) (List.replicate size 0)
          f.waits f.events f.accepts f.writes := by
  unfold run
  split
  · exact Or.inl ⟨rfl, rfl, Or.inl rfl⟩
  · split_ifs
    · exact Or.inl ⟨rfl, rfl, Or.inr rfl⟩
    · exact Or.inl ⟨rfl, rfl, Or.inr rfl⟩
    · exact Or.inl ⟨rfl, rfl, Or.inr rfl⟩
    · exact Or.inl ⟨rfl, rfl, Or.inr rfl⟩
    · exact Or.inr rfl

/-- C10 (amended): `waitForIncomingConnection` returns OS_SUCCESS only if the
last wake delivered exactly one event, for the listening handle, whose mask
has the FIN flag clear and either the connection-accepted flag set or, with
the connection-accepted and CLOSE flags clear, the ERROR flag set with
OS_SUCCESS as the carried error code; hence, for every input, `run` calls the
accept primitive of the facility only right after such an event was
delivered. -/
theorem accept_only_after_ready_event (fl : EventFlags) (size : Nat) (f : Facility) :
    (∀ (srvHandleId : Int) (waits : List OS_Error_t) (events : List PendingEvents),
        (waitForIncomingConnection fl srvHandleId waits events).ret = some .OS_SUCCESS →
        ∃ p, (waitForIncomingConnection fl srvHandleId waits events).trace.getLast?
            = some (.getPendingEvents (some p)) ∧
          p.ret = .OS_SUCCESS ∧ p.numberOfSocketsWithEvents = 1 ∧
          p.event.socketHandle = srvHandleId ∧
          p.event.eventMask &&& fl.OS_SOCK_EV_FIN = 0 ∧
          (p.event.eventMask &&& fl.OS_SOCK_EV_CONN_ACPT ≠ 0 ∨
            (p.event.eventMask &&& fl.OS_SOCK_EV_CLOSE = 0 ∧
              p.event.eventMask &&& fl.OS_SOCK_EV_ERROR ≠ 0 ∧
              p.event.currentError = .OS_SUCCESS)))
      ∧ (∀ before after, (run fl size f).trace = before ++ .accept :: after →
        ∃ earlier p, before = earlier ++ [.getPendingEvents (some p)] ∧
          acceptReady fl f.hServer p) := by
  constructor
  · intro srvHandleId waits events h
    exact (waitForIncomingConnection_trace fl srvHandleId waits events).2.2.1 h
  · intro before after hT
    rcases run_cases fl size f with h | h
    · rw [h.1] at hT
      simp at hT
    · rw [h] at hT
      obtain ⟨c1, c2, _, _⟩ := acceptLoop_trace fl f.hServer (f.waits.length + 1)
        (List.replicate size 0) f.waits f.events f.accepts f.writes
      rw [hT] at c1 c2
      rcases List.eq_nil_or_concat before with rfl | ⟨earlier, x, rfl⟩
      · simp at c2
      · rw [List.concat_eq_append, List.append_assoc] at c1
        obtain ⟨p, hp, hr⟩ := chain_neighbours _ earlier after x .accept c1 rfl
        exact ⟨earlier, p, by rw [List.concat_eq_append, hp], hr⟩

/-- Counterexample to C10 as stated: one event for the listening handle 3
whose mask has only the ERROR flag, with OS_SUCCESS as the carried error
code.  `waitForIncomingConnection` returns OS_SUCCESS although the
connection-accepted flag is clear, and `run` calls `OS_Socket_accept` with no
connection-accepted event observed. -/
theorem accept_after_error_event_with_success_code :
    (waitForIncomingConnection sampleFlags 3 [.OS_SUCCESS]
        [oneEvent 3 64 .OS_SUCCESS]).ret = some .OS_SUCCESS
      ∧ (oneEvent 3 64 .OS_SUCCESS).event.eventMask
          &&& sampleFlags.OS_SOCK_EV_CONN_ACPT = 0
      ∧ (run sampleFlags 4096
          (sampleFacility [.OS_SUCCESS] [oneEvent 3 64 .OS_SUCCESS] [] [])).trace
        = [.wait (some .OS_SUCCESS), .getPendingEvents (some (oneEvent 3 64 .OS_SUCCESS)),
            .accept] := by
  refine ⟨by decide, by decide, by decide⟩


/-- C10 (amended) at a concrete input: a connection-accepted event for the
listening handle 3, after which `run` calls `OS_Socket_accept`. -/
theorem accept_only_after_ready_event_witness :
    (waitForIncomingConnection sampleFlags 3 [.OS_SUCCESS]
        [oneEvent 3 2 .OS_SUCCESS]).ret = some .OS_SUCCESS
      ∧ (run sampleFlags 4096
          (sampleFacility [.OS_SUCCESS] [oneEvent 3 2 .OS_SUCCESS] [] [])).trace
        = [.wait (some .OS_SUCCESS), .getPendingEvents (some (oneEvent 3 2 .OS_SUCCESS))]
          ++ .accept :: []
      ∧ (∃ p, (waitForIncomingConnection sampleFlags 3 [.OS_SUCCESS]
            [oneEvent 3 2 .OS_SUCCESS]).trace.getLast?
            = some (.getPendingEvents (some p)) ∧
          p.ret = .OS_SUCCESS ∧ p.numberOfSocketsWithEvents = 1 ∧
          p.event.socketHandle = 3 ∧
          p.event.eventMask &&& sampleFlags.OS_SOCK_EV_FIN = 0 ∧
          (p.event.eventMask &&& sampleFlags.OS_SOCK_EV_CONN_ACPT ≠ 0 ∨
            (p.event.eventMask &&& sampleFlags.OS_SOCK_EV_CLOSE = 0 ∧
              p.event.eventMask &&& sampleFlags.OS_SOCK_EV_ERROR ≠ 0 ∧
              p.event.currentError = .OS_SUCCESS)))
      ∧ ∃ earlier p,
          [Call.wait (some .OS_SUCCESS), .getPendingEvents (some (oneEvent 3 2 .OS_SUCCESS))]
            = earlier ++ [.getPendingEvents (some p)] ∧
          acceptReady sampleFlags 3 p :=
  ⟨by decide, by decide,
    (accept_only_after_ready_event sampleFlags 4096
      (sampleFacility [.OS_SUCCESS] [oneEvent 3 2 .OS_SUCCESS] [] [])).1 3 [.OS_SUCCESS]
      [oneEvent 3 2 .OS_SUCCESS] (by decide),
    (accept_only_after_ready_event sampleFlags 4096
      (sampleFacility [.OS_SUCCESS] [oneEvent 3 2 .OS_SUCCESS] [] [])).2
      [.wait (some .OS_SUCCESS), .getPendingEvents (some (oneEvent 3 2 .OS_SUCCESS))] []
      (by decide)⟩

/-- One result of `OS_Socket_write` in the loop of `sendTraffic`: OS_SUCCESS
and OS_ERROR_TRY_AGAIN go on with the next write, every other code is
returned. -/
theorem sendTrafficLoop_cons (buf : List Nat) (w : WriteResult) (later : List WriteResult) :
    ((w.ret = .OS_SUCCESS ∨ w.ret = .OS_ERROR_TRY_AGAIN) →
        (sendTrafficLoop buf (w :: later)).ret = (sendTrafficLoop buf later).ret ∧
        (sendTrafficLoop buf (w :: later)).writes = 1 + (sendTrafficLoop buf later).writes ∧
        (sendTrafficLoop buf (w :: later)).rest = (sendTrafficLoop buf later).rest)
      ∧ (w.ret ≠ .OS_SUCCESS → w.ret ≠ .OS_ERROR_TRY_AGAIN →
        (sendTrafficLoop buf (w :: later)).ret = some w.ret ∧
        (sendTrafficLoop buf (w :: later)).writes = 1 ∧
        (sendTrafficLoop buf (w :: later)).rest = later) := by
  constructor
  · rintro (h | h)
    · simp [sendTrafficLoop, h]
    · simp [sendTrafficLoop, h]
  · intro h1 h2
    unfold sendTrafficLoop
    rw [if_neg h1, if_neg h2]
    split_ifs with a b
    · exact absurd b (fun h => h.elim h1 h2)
    · exact ⟨rfl, rfl, rfl⟩
    · exact ⟨rfl, rfl, rfl⟩

/-- Counterexample to C7 as stated: in the sample run `twoConnections` the
second write of the first connection fails with the error code -1.
`sendTraffic` returns that code, but `run` does not return: it closes the
connection, waits again, accepts and serves the second connection, closes it
and waits for a third one. -/
theorem run_survives_write_error :
    (sendTraffic (List.replicate 4096 0) twoConnections.writes).ret = some (.other (-1))
      ∧ (run sampleFlags 4096 twoConnections).exitCode = none
      ∧ (run sampleFlags 4096 twoConnections).trace =
        [.wait (some .OS_SUCCESS), .getPendingEvents (some (oneEvent 3 2 .OS_SUCCESS)),
          .accept, .write, .write, .close (some 7),
          .wait (some .OS_SUCCESS), .getPendingEvents (some (oneEvent 3 2 .OS_SUCCESS)),
          .accept, .write, .close (some 8), .wait none] := by
  refine ⟨by decide, by decide, by decide⟩

/-- The pattern has the length asked for. -/
theorem pattern_length (n : Nat) : (pattern n).length = n := by
  simp [pattern]

/-- The pattern grows by one byte at the end. -/
theorem pattern_succ (n : Nat) : pattern (n + 1) = pattern n ++ [n % 256] := by
  simp [pattern, List.range_succ]

/-- Byte i of the pattern is i mod 256. -/
theorem pattern_getD (n i : Nat) (h : i < n) : (pattern n).getD i 0 = i % 256 := by
  have hl : i < (pattern n).length := by rw [pattern_length]; exact h
  rw [List.getD_eq_getElem _ _ hl]
  simp [pattern]

/-- A front piece of the pattern is the pattern of that length. -/
theorem pattern_take (k n : Nat) (h : k ≤ n) : (pattern n).take k = pattern k := by
  unfold pattern
  rw [← List.map_take, List.take_range, Nat.min_eq_left h]

/-- The initialisation loop of `sendTraffic` after `k` passes: the first `k`
bytes hold the pattern, the others are unchanged. -/
theorem initBuffer_partway (buf : List Nat) (k : Nat) (hk : k ≤ buf.length) :
    (List.range k).foldl (fun b i => b.set i (i % 256)) buf = pattern k ++ buf.drop k := by
  induction k with
  | zero => simp [pattern]
  | succ k ih =>
    have hk' : k < buf.length := hk
    rw [List.range_succ, List.foldl_append, ih (Nat.le_of_lt hk'), List.foldl_cons,
      List.foldl_nil, List.set_append_right _ _ (by rw [pattern_length]), pattern_length,
      Nat.sub_self, List.drop_eq_getElem_cons hk', List.set_cons_zero, pattern_succ,
      List.append_assoc]
    rfl

/-- The initialisation loop of `sendTraffic` fills the whole buffer with the
pattern, whatever it held before. -/
theorem initBuffer_eq (buf : List Nat) : initBuffer buf = pattern buf.length := by
  unfold initBuffer
  rw [initBuffer_partway buf buf.length (Nat.le_refl _), List.drop_length, List.append_nil]

/-- A stream that follows the pattern stays so when a piece of the pattern
whose length is a multiple of 256 is put in front. -/
theorem pattern_append (k : Nat) (hk : k % 256 = 0) (later : List Nat)
    (h : ∀ n, n < later.length → later.getD n 0 = n % 256) :
    ∀ n, n < (pattern k ++ later).length → (pattern k ++ later).getD n 0 = n % 256 := by
  intro n hn
  rw [List.length_append, pattern_length] at hn
  by_cases hlt : n < k
  · rw [List.getD_append _ _ _ _ (by rw [pattern_length]; exact hlt), pattern_getD k n hlt]
  · rw [List.getD_append_right _ _ _ _ (by rw [pattern_length]; omega), pattern_length,
      h (n - k) (by omega)]
    omega

/-- The stream of `sendTraffic` follows the pattern when every successful
write took a multiple of 256 bytes. -/
theorem sendTrafficLoop_delivered (size : Nat) (writes : List WriteResult)
    (hw : ∀ w ∈ writes, w.ret = .OS_SUCCESS → w.actualLen ≤ size ∧ w.actualLen % 256 = 0) :
    ∀ n, n < (sendTrafficLoop (pattern size) writes).delivered.length →
      (sendTrafficLoop (pattern size) writes).delivered.getD n 0 = n % 256 := by
  induction writes with
  | nil => intro n hn; simp [sendTrafficLoop] at hn
  | cons w later ih =>
    have ih := ih (fun x hx => hw x (List.mem_cons_of_mem _ hx))
    unfold sendTrafficLoop
    by_cases h1 : w.ret = .OS_SUCCESS
    · obtain ⟨hle, hmod⟩ := hw w (List.mem_cons_self _ _) h1
      rw [if_pos h1]
      simp only []
      rw [pattern_take _ _ hle]
      exact pattern_append _ hmod _ ih
    · rw [if_neg h1]
      by_cases h2 : w.ret = .OS_ERROR_TRY_AGAIN
      · rw [if_pos h2]
        exact ih
      · rw [if_neg h2]
        split_ifs with a b
        · exact absurd b (fun h => h.elim h1 h2)
        · intro n hn; simp at hn
        · intro n hn; simp at hn

/-- The responses that `sendTraffic` leaves unread are among those it was
given. -/
theorem sendTrafficLoop_rest (buf : List Nat) (writes : List WriteResult) :
    ∀ w ∈ (sendTrafficLoop buf writes).rest, w ∈ writes := by
  induction writes with
  | nil => intro w hw; simp [sendTrafficLoop] at hw
  | cons x later ih =>
    intro w
    unfold sendTrafficLoop
    split_ifs <;> intro hw
    · exact List.mem_cons_of_mem _ (ih w hw)
    · exact List.mem_cons_of_mem _ (ih w hw)
    · exact List.mem_cons_of_mem _ (ih w hw)
    · exact List.mem_cons_of_mem _ hw
    · exact List.mem_cons_of_mem _ hw


/-- Every stream of the outer loop of `run` follows the pattern when every
successful write took a multiple of 256 bytes. -/
theorem acceptLoop_streams (fl : EventFlags) (hServer : Int) (size : Nat) (fuel : Nat) :
    ∀ (buf : List Nat) (waits : List OS_Error_t) (events : List PendingEvents)
      (accepts : List AcceptResult) (writes : List WriteResult),
      buf.length = size →
      (∀ w ∈ writes, w.ret = .OS_SUCCESS → w.actualLen ≤ size ∧ w.actualLen % 256 = 0) →
      ∀ s ∈ (acceptLoop fl hServer fuel buf waits events accepts writes).streams,
        ∀ n, n < s.length → s.getD n 0 = n % 256 := by
  induction fuel with
  | zero =>
    intro buf waits events accepts writes _ _ s hs
    simp [acceptLoop] at hs
  | succ fuel ih =>
    intro buf waits events accepts writes hbuf hw s hs
    have hd : ∀ n, n < (sendTraffic buf writes).delivered.length →
        (sendTraffic buf writes).delivered.getD n 0 = n % 256 := by
      unfold sendTraffic
      rw [initBuffer_eq, hbuf]
      exact sendTrafficLoop_delivered size writes hw
    unfold acceptLoop at hs
    simp only [] at hs
    split at hs
    · simp at hs
    · simp at hs
    · split at hs
      · rw [List.mem_singleton.mp hs]
        exact hd
      · rcases List.mem_cons.mp hs with hs | hs
        · rw [hs]
          exact hd
        · refine ih _ _ _ _ _ ?_ ?_ s hs
          · rw [initBuffer_eq, pattern_length, hbuf]
          · intro w hwm
            exact hw w (sendTrafficLoop_rest _ _ w hwm)

/-- C5 (amended): for every sequence of write results in which each
successful write takes a multiple of 256 bytes of the buffer (try-again
results anywhere), the N-th byte that `sendTraffic` delivers to the stream,
counted from 0 at the start of the connection, equals N mod 256; what
`sendTraffic` does is independent of what the static buffer held from earlier
connections; and so every connection served by `run` starts again at byte 0
and follows the pattern. -/
theorem stream_follows_pattern (fl : EventFlags) (size : Nat) (f : Facility)
    (hw : ∀ w ∈ f.writes, w.ret = .OS_SUCCESS →
      w.actualLen ≤ size ∧ w.actualLen % 256 = 0) :
    (∀ buf : List Nat, buf.length = size →
        ∀ n, n < (sendTraffic buf f.writes).delivered.length →
          (sendTraffic buf f.writes).delivered.getD n 0 = n % 256)
      ∧ (∀ buf earlier : List Nat, buf.length = size → earlier.length = size →
        sendTraffic buf f.writes = sendTraffic earlier f.writes)
      ∧ (∀ s ∈ (run fl size f).streams, ∀ n, n < s.length → s.getD n 0 = n % 256) := by
  refine ⟨?_, ?_, ?_⟩
  · intro buf hbuf
    unfold sendTraffic
    rw [initBuffer_eq, hbuf]
    exact sendTrafficLoop_delivered size f.writes hw
  · intro buf earlier h1 h2
    unfold sendTraffic
    rw [initBuffer_eq, initBuffer_eq, h1, h2]
  · intro s hs
    rcases run_cases fl size f with h | h
    · rw [h.2.1] at hs
      simp at hs
    · rw [h] at hs
      exact acceptLoop_streams fl f.hServer size _ _ _ _ _ _ (List.length_replicate _ _) hw
        s hs

/-- The stream of two successful writes that took `a` and `b` bytes of a
buffer of 4096 bytes. -/
theorem two_writes_stream (buf : List Nat) (a b : Nat) (h : buf.length = 4096)
    (ha : a ≤ 4096) (hb : b ≤ 4096) :
    (sendTraffic buf [⟨.OS_SUCCESS, a⟩, ⟨.OS_SUCCESS, b⟩]).delivered
      = pattern a ++ (pattern b ++ []) := by
  unfold sendTraffic
  rw [initBuffer_eq, h]
  simp only [sendTrafficLoop, if_true]
  rw [pattern_take a 4096 ha, pattern_take b 4096 hb]

/-- Counterexample to C5 as stated: the first write takes only 100 bytes of
the 4096-byte buffer, the second takes the whole buffer.  The stream has 4196
bytes and its byte 100 is the first byte of the buffer again, 0, not 100. -/
theorem short_write_breaks_pattern :
    (sendTraffic (List.replicate 4096 0)
        [⟨.OS_SUCCESS, 100⟩, ⟨.OS_SUCCESS, 4096⟩]).delivered.length = 4196
      ∧ (sendTraffic (List.replicate 4096 0)
        [⟨.OS_SUCCESS, 100⟩, ⟨.OS_SUCCESS, 4096⟩]).delivered.getD 100 0 = 0
      ∧ 100 % 256 = 100 := by
  rw [two_writes_stream _ 100 4096 (List.length_replicate _ _) (by norm_num) (Nat.le_refl _)]
  refine ⟨?_, ?_, by norm_num⟩
  · rw [List.length_append, List.length_append, pattern_length, pattern_length]
    rfl
  · rw [List.getD_append_right _ _ _ _ (by rw [pattern_length]), pattern_length,
      List.getD_append _ _ _ _ (by rw [pattern_length]; norm_num),
      pattern_getD _ _ (by norm_num)]


/-- C5 (amended) at a concrete input: a write that takes 512 bytes and a full
write of 4096 bytes; byte 700 of the stream is 700 mod 256. -/
theorem stream_follows_pattern_witness :
    (∀ w ∈ [(⟨.OS_SUCCESS, 512⟩ : WriteResult), ⟨.OS_SUCCESS, 4096⟩],
        w.ret = .OS_SUCCESS → w.actualLen ≤ 4096 ∧ w.actualLen % 256 = 0)
      ∧ 700 < (sendTraffic (List.replicate 4096 0)
          [⟨.OS_SUCCESS, 512⟩, ⟨.OS_SUCCESS, 4096⟩]).delivered.length
      ∧ (sendTraffic (List.replicate 4096 0)
          [⟨.OS_SUCCESS, 512⟩, ⟨.OS_SUCCESS, 4096⟩]).delivered.getD 700 0 = 700 % 256 :=
  have hlen : 700 < (sendTraffic (List.replicate 4096 0)
      [⟨.OS_SUCCESS, 512⟩, ⟨.OS_SUCCESS, 4096⟩]).delivered.length := by
    rw [two_writes_stream _ 512 4096 (List.length_replicate _ _) (by norm_num)
      (Nat.le_refl _), List.length_append, List.length_append, pattern_length,
      pattern_length]
    decide
  ⟨by decide, hlen,
    (stream_follows_pattern sampleFlags 4096
      (sampleFacility [.OS_SUCCESS] [oneEvent 3 2 .OS_SUCCESS] [⟨.OS_SUCCESS, 7⟩]
        [⟨.OS_SUCCESS, 512⟩, ⟨.OS_SUCCESS, 4096⟩])
      (by decide)).1 (List.replicate 4096 0) (List.length_replicate _ _) 700 hlen⟩

/-- The shape of the trace of `run` on every input: after a call of
`OS_Socket_write` comes another one or the close of the served connection;
after the close of a served connection comes a call of `OS_Socket_wait`; and
when `run` returns, the exit code is -1 and `run` ended in the bootstrap or
right after closing `hSocket` on a failed wait or accept. -/
theorem run_trace_shape (fl : EventFlags) (size : Nat) (f : Facility) :
    (∀ before next after, (run fl size f).trace = before ++ .write :: next :: after →
        next = .write ∨ ∃ h, next = .close (some h))
      ∧ (∀ before h after, (run fl size f).trace = before ++ .close (some h) :: after →
        ∃ r later, after = .wait r :: later)
      ∧ (∀ c, (run fl size f).exitCode = some c →
        c = -1 ∧ ((run fl size f).trace = [] ∨
          (run fl size f).trace.getLast? = some (.close none))) := by
  refine ⟨?_, ?_, ?_⟩
  · intro before next after hT
    rcases run_cases fl size f with h | h
    · rw [h.1] at hT
      simp at hT
    · rw [h] at hT
      have c := acceptLoop_writes fl f.hServer (f.waits.length + 1)
        (List.replicate size 0) f.waits f.events f.accepts f.writes
      rw [hT] at c
      exact chain_neighbours _ before after .write next c rfl
  · intro before hS after hT
    rcases run_cases fl size f with h | h
    · rw [h.1] at hT
      simp at hT
    · rw [h] at hT
      obtain ⟨_, _, _, c4⟩ := acceptLoop_trace fl f.hServer (f.waits.length + 1)
        (List.replicate size 0) f.waits f.events f.accepts f.writes
      obtain ⟨c, _, cl⟩ := c4 (Nat.lt_succ_self _)
      rw [hT] at c cl
      cases after with
      | nil =>
        exact absurd (List.getLast?_concat before) (cl hS)
      | cons y after =>
        obtain ⟨r, hr⟩ := chain_neighbours _ before after _ y c ⟨hS, rfl⟩
        exact ⟨r, after, by rw [hr]⟩
  · intro c hc
    rcases run_cases fl size f with h | h
    · rcases h.2.2 with h' | h'
      · rw [h'] at hc
        cases hc
      · rw [h'] at hc
        exact ⟨(Option.some.inj hc).symm, Or.inl h.1⟩
    · rw [h] at hc ⊢
      obtain ⟨_, _, c3, _⟩ := acceptLoop_trace fl f.hServer (f.waits.length + 1)
        (List.replicate size 0) f.waits f.events f.accepts f.writes
      exact ⟨(c3 c hc).1, Or.inr (c3 c hc).2⟩

/-- The loop of `sendTraffic` on writes that all report OS_SUCCESS or
OS_ERROR_TRY_AGAIN keeps sending: it has called `OS_Socket_write` once more
than there are results and has not returned. -/
theorem sendTrafficLoop_sending (buf : List Nat) (pre : List WriteResult)
    (hpre : ∀ x ∈ pre, x.ret = .OS_SUCCESS ∨ x.ret = .OS_ERROR_TRY_AGAIN) :
    (sendTrafficLoop buf pre).ret = none ∧
      (sendTrafficLoop buf pre).writes = pre.length + 1 := by
  induction pre with
  | nil => simp [sendTrafficLoop]
  | cons x pre ih =>
    have ih := ih (fun y hy => hpre y (List.mem_cons_of_mem _ hy))
    obtain ⟨h1, h2, _⟩ := (sendTrafficLoop_cons buf x pre).1 (hpre x (List.mem_cons_self _ _))
    rw [h1, h2, ih.1, ih.2, List.length_cons]
    exact ⟨rfl, by omega⟩

/-- The loop of `sendTraffic` returns the first code that is neither
OS_SUCCESS nor OS_ERROR_TRY_AGAIN, right after the write that reported it. -/
theorem sendTrafficLoop_returns (buf : List Nat) (pre : List WriteResult) (w : WriteResult)
    (later : List WriteResult)
    (hpre : ∀ x ∈ pre, x.ret = .OS_SUCCESS ∨ x.ret = .OS_ERROR_TRY_AGAIN)
    (hw1 : w.ret ≠ .OS_SUCCESS) (hw2 : w.ret ≠ .OS_ERROR_TRY_AGAIN) :
    (sendTrafficLoop buf (pre ++ w :: later)).ret = some w.ret ∧
      (sendTrafficLoop buf (pre ++ w :: later)).writes = pre.length + 1 ∧
      (sendTrafficLoop buf (pre ++ w :: later)).rest = later := by
  induction pre with
  | nil =>
    have h := (sendTrafficLoop_cons buf w later).2 hw1 hw2
    exact ⟨h.1, h.2.1, h.2.2⟩
  | cons x pre ih =>
    have ih := ih (fun y hy => hpre y (List.mem_cons_of_mem _ hy))
    obtain ⟨h1, h2, h3⟩ := (sendTrafficLoop_cons buf x (pre ++ w :: later)).1
      (hpre x (List.mem_cons_self _ _))
    rw [List.cons_append, h1, h2, h3, ih.1, ih.2.1, ih.2.2, List.length_cons]
    exact ⟨rfl, by omega, rfl⟩

/-- The outer loop of `run` depends on the static buffer only through its
length: `sendTraffic` fills it anew for every connection. -/
theorem acceptLoop_buf (fl : EventFlags) (hServer : Int) (fuel : Nat) (buf₁ buf₂ : List Nat)
    (waits : List OS_Error_t) (events : List PendingEvents) (accepts : List AcceptResult)
    (writes : List WriteResult) (h : buf₁.length = buf₂.length) :
    acceptLoop fl hServer fuel buf₁ waits events accepts writes
      = acceptLoop fl hServer fuel buf₂ waits events accepts writes := by
  have e₁ : initBuffer buf₁ = initBuffer buf₂ := by rw [initBuffer_eq, initBuffer_eq, h]
  have e₂ : sendTraffic buf₁ writes = sendTraffic buf₂ writes := by
    unfold sendTraffic
    rw [e₁]
  cases fuel with
  | zero => simp [acceptLoop]
  | succ fuel => simp only [acceptLoop, e₁, e₂]

/-- After a bootstrap without error `run` is the accept loop on the responses
of the facility. -/
theorem run_of_bootstrap (fl : EventFlags) (size : Nat) (f : Facility)
    (hinit : (waitForNetworkStackInit f.statuses).ret = some .OS_SUCCESS)
    (hcreate : f.create = .OS_SUCCESS) (hbind : f.bind = .OS_SUCCESS)
    (hlisten : f.listen = .OS_SUCCESS) :
    run fl size f =
      acceptLoop fl f.hServer (f.waits.length + 1) (List.replicate size 0)
        f.waits f.events f.accepts f.writes := by
  unfold run
  simp [hinit, hcreate, hbind, hlisten]

/-- C7 (amended): in the TCP server, when after any number of successful and
try-again writes (which keep `sendTraffic` sending) `OS_Socket_write` reports
another code, an error as well as connection-closed or shutdown,
`sendTraffic` makes no further write and returns that code.  Whatever the
code is, `run` does not return on it: after the writes it closes the handle
of the accepted connection and goes on exactly as the server does on the
responses that are left, first of all with a call of `OS_Socket_wait` for the
next connection; its exit code is that of this continuation.  On every input,
a write is followed by a write or the close of the served connection, that
close by a wait, and `run` returns, with exit code -1, only from the
bootstrap or right after a failed wait or accept. -/
theorem write_error_ends_connection_only (fl : EventFlags) (size : Nat) (f : Facility)
    (pre : List WriteResult) (w : WriteResult) (later : List WriteResult) (h : Int)
    (hinit : (waitForNetworkStackInit f.statuses).ret = some .OS_SUCCESS)
    (hcreate : f.create = .OS_SUCCESS) (hbind : f.bind = .OS_SUCCESS)
    (hlisten : f.listen = .OS_SUCCESS)
    (hacc : (acceptConnection fl f.hServer f.accepts f.waits f.events).fin = .accepted h)
    (hwrites : f.writes = pre ++ w :: later)
    (hpre : ∀ x ∈ pre, x.ret = .OS_SUCCESS ∨ x.ret = .OS_ERROR_TRY_AGAIN)
    (hw1 : w.ret ≠ .OS_SUCCESS) (hw2 : w.ret ≠ .OS_ERROR_TRY_AGAIN) :
    (∀ buf : List Nat,
        (sendTraffic buf f.writes).ret = some w.ret ∧
        (sendTraffic buf f.writes).writes = pre.length + 1 ∧
        (sendTraffic buf f.writes).rest = later)
      ∧ (∀ buf : List Nat,
        (sendTraffic buf pre).ret = none ∧ (sendTraffic buf pre).writes = pre.length + 1)
      ∧ (run fl size f).trace =
        (acceptConnection fl f.hServer f.accepts f.waits f.events).trace
          ++ List.replicate (pre.length + 1) .write
          ++ .close (some h) :: (run fl size (afterFirstConnection fl size f)).trace
      ∧ (run fl size f).exitCode = (run fl size (afterFirstConnection fl size f)).exitCode
      ∧ (run fl size f).streams =
        (sendTraffic (List.replicate size 0) f.writes).delivered
          :: (run fl size (afterFirstConnection fl size f)).streams
      ∧ (afterFirstConnection fl size f).writes = later
      ∧ (∃ r rest, (run fl size (afterFirstConnection fl size f)).trace = .wait r :: rest)
      ∧ (∀ g : Facility,
        (∀ before next after, (run fl size g).trace = before ++ .write :: next :: after →
          next = .write ∨ ∃ k, next = .close (some k))
        ∧ (∀ before k after, (run fl size g).trace = before ++ .close (some k) :: after →
          ∃ r rest, after = .wait r :: rest)
        ∧ (∀ c, (run fl size g).exitCode = some c →
          c = -1 ∧ ((run fl size g).trace = [] ∨
            (run fl size g).trace.getLast? = some (.close none)))) := by
  have hsend : ∀ buf : List Nat,
      (sendTraffic buf f.writes).ret = some w.ret ∧
      (sendTraffic buf f.writes).writes = pre.length + 1 ∧
      (sendTraffic buf f.writes).rest = later := by
    intro buf
    unfold sendTraffic
    rw [hwrites]
    exact sendTrafficLoop_returns _ pre w later hpre hw1 hw2
  obtain ⟨s1, s2, s3⟩ := hsend (List.replicate size 0)
  obtain ⟨_, _, _, a4, _⟩ := acceptConnection_trace fl f.hServer f.accepts f.waits f.events
  have hlt := a4 h hacc
  have hrest : run fl size (afterFirstConnection fl size f) =
      acceptLoop fl f.hServer f.waits.length (initBuffer (List.replicate size 0))
        (acceptConnection fl f.hServer f.accepts f.waits f.events).waits
        (acceptConnection fl f.hServer f.accepts f.waits f.events).events
        (acceptConnection fl f.hServer f.accepts f.waits f.events).accepts
        (sendTraffic (List.replicate size 0) f.writes).rest := by
    rw [run_of_bootstrap fl size (afterFirstConnection fl size f) hinit hcreate hbind hlisten]
    exact (acceptLoop_fuel fl f.hServer
      ((acceptConnection fl f.hServer f.accepts f.waits f.events).waits.length + 1)
      f.waits.length (List.replicate size 0)
      (acceptConnection fl f.hServer f.accepts f.waits f.events).waits
      (acceptConnection fl f.hServer f.accepts f.waits f.events).events
      (acceptConnection fl f.hServer f.accepts f.waits f.events).accepts
      (sendTraffic (List.replicate size 0) f.writes).rest (Nat.lt_succ_self _) hlt).trans
      (acceptLoop_buf fl f.hServer _ _ _ _ _ _ _ (by rw [initBuffer_eq, pattern_length]))
  have hrun : run fl size f =
      ⟨(run fl size (afterFirstConnection fl size f)).exitCode,
        (acceptConnection fl f.hServer f.accepts f.waits f.events).trace
          ++ List.replicate (pre.length + 1) .write
          ++ .close (some h) :: (run fl size (afterFirstConnection fl size f)).trace,
        (sendTraffic (List.replicate size 0) f.writes).delivered
          :: (run fl size (afterFirstConnection fl size f)).streams⟩ := by
    rw [hrest, run_of_bootstrap fl size f hinit hcreate hbind hlisten]
    simp only [acceptLoop, hacc, s1, s2]
  refine ⟨hsend, ?_, ?_, ?_, ?_, s3, ?_, fun g => run_trace_shape fl size g⟩
  · intro buf
    unfold sendTraffic
    exact sendTrafficLoop_sending _ pre hpre
  · rw [hrun]
  · rw [hrun]
  · rw [hrun]
  · rw [hrest]
    obtain ⟨_, _, _, c4⟩ := acceptLoop_trace fl f.hServer f.waits.length
      (initBuffer (List.replicate size 0))
      (acceptConnection fl f.hServer f.accepts f.waits f.events).waits
      (acceptConnection fl f.hServer f.accepts f.waits f.events).events
      (acceptConnection fl f.hServer f.accepts f.waits f.events).accepts
      (sendTraffic (List.replicate size 0) f.writes).rest
    exact (c4 hlt).2.1

/-- C7 (amended) at a concrete input, the sample run `twoConnections`: on the
connection with handle 7 a full write succeeds and the next write reports the
error code -1.  `sendTraffic` returns that code; `run` closes handle 7 and
goes on with the responses that are left, starting with `OS_Socket_wait`. -/
theorem write_error_ends_connection_only_witness :
    ((waitForNetworkStackInit twoConnections.statuses).ret = some .OS_SUCCESS
        ∧ twoConnections.create = .OS_SUCCESS ∧ twoConnections.bind = .OS_SUCCESS
        ∧ twoConnections.listen = .OS_SUCCESS
        ∧ (acceptConnection sampleFlags twoConnections.hServer twoConnections.accepts
            twoConnections.waits twoConnections.events).fin = .accepted 7
        ∧ twoConnections.writes
            = [⟨.OS_SUCCESS, 4096⟩] ++ ⟨.other (-1), 0⟩ :: [⟨.OS_ERROR_CONNECTION_CLOSED, 0⟩]
        ∧ (∀ x ∈ [(⟨.OS_SUCCESS, 4096⟩ : WriteResult)],
            x.ret = .OS_SUCCESS ∨ x.ret = .OS_ERROR_TRY_AGAIN)
        ∧ OS_Error_t.other (-1) ≠ .OS_SUCCESS
        ∧ OS_Error_t.other (-1) ≠ .OS_ERROR_TRY_AGAIN)
      ∧ (sendTraffic (List.replicate 4096 0) twoConnections.writes).ret = some (.other (-1))
      ∧ (run sampleFlags 4096 twoConnections).trace =
        (acceptConnection sampleFlags twoConnections.hServer twoConnections.accepts
            twoConnections.waits twoConnections.events).trace
          ++ List.replicate 2 .write
          ++ .close (some 7)
            :: (run sampleFlags 4096 (afterFirstConnection sampleFlags 4096 twoConnections)).trace
      ∧ (run sampleFlags 4096 twoConnections).exitCode =
        (run sampleFlags 4096 (afterFirstConnection sampleFlags 4096 twoConnections)).exitCode
      ∧ (afterFirstConnection sampleFlags 4096 twoConnections).writes
        = [⟨.OS_ERROR_CONNECTION_CLOSED, 0⟩]
      ∧ ∃ r rest,
          (run sampleFlags 4096 (afterFirstConnection sampleFlags 4096 twoConnections)).trace
            = .wait r :: rest :=
  have T := write_error_ends_connection_only sampleFlags 4096 twoConnections
    [⟨.OS_SUCCESS, 4096⟩] ⟨.other (-1), 0⟩ [⟨.OS_ERROR_CONNECTION_CLOSED, 0⟩] 7
    (by decide) (by decide) (by decide) (by decide) (by decide) (by decide) (by decide)
    (by decide) (by decide)
  ⟨⟨by decide, by decide, by decide, by decide, by decide, by decide, by decide, by decide,
      by decide⟩,
    (T.1 (List.replicate 4096 0)).1, T.2.2.1, T.2.2.2.1, T.2.2.2.2.2.1, T.2.2.2.2.2.2.1⟩

end BenchTcpThroughput
